import Mathlib

/-!
Shallow embedding of the testmaker backend (Task/Answer/User domain services
and the object-store adapter) and proofs about the spec's claims.

Python sources embedded:
  - back/utils/minio_manager.py   (upload URL shape, delete-by-object-name)
  - back/services/task_service.py (create/update task, attachment helpers,
    delete_task_file)
  - back/services/answer_service.py (create/update/grade/delete answer)
  - back/services/user_service.py (delete_own_account)
  - back/repo/* (find/create/update/delete over in-memory lists)

Machine integers do not overflow in the relevant code paths, so ids are Nat.
HTTP exceptions are modelled as an error value carrying the status code and
detail string actually raised by the Python code.
-/

namespace Testmaker

/-- Roles from back/enums/enums.py `UserRole`. -/
inductive UserRole where
  | student
  | teacher
  | admin
deriving DecidableEq, Repr

/-- Statuses from back/entities/enums/enums.py `AnswerStatus`. -/
inductive AnswerStatus where
  | SUBMITTED
  | GRADED
  | RETURNED
deriving DecidableEq, Repr

/-- A user row; only the fields the embedded services read.
`hashed_password` is `none` for externally-authenticated accounts
(models the nullable `hashed_password` column). -/
structure User where
  id : Nat
  role : UserRole
  hashed_password : Option String := none
deriving DecidableEq, Repr

/-- Attachment metadata entry `{"name": ..., "url": ...}` as built by the
services; `name` is the uploaded file's `filename`, which FastAPI types as
`Optional[str]`. -/
structure FileMeta where
  name : Option String
  url : String
deriving DecidableEq, Repr

/-- An incoming `UploadFile`: the fields the services read. -/
structure UploadFile where
  filename : Option String
  content_type : String
deriving DecidableEq, Repr

/-- A task row (back/models/task_model.py), fields used by TaskService. -/
structure Task where
  id : Nat
  title : String
  description : String
  lesson_name : String
  lesson_type : String
  checker : Nat
  specialty : String
  course : Nat
  deadline : Option Nat
  files_metadata : List FileMeta
  photos_metadata : List FileMeta
deriving DecidableEq, Repr

/-- An answer row (back/entities/models/answer_model.py). Timestamps are Nat. -/
structure Answer where
  id : Nat
  task_id : Nat
  student_id : Nat
  message : String
  status : AnswerStatus
  grade : Option Nat
  teacher_comment : Option String
  graded_at : Option Nat
  files_metadata : List FileMeta
  photos_metadata : List FileMeta
deriving DecidableEq, Repr

/-- A raised `HTTPException(status_code=..., detail=...)`. -/
structure HTTPError where
  status_code : Nat
  detail : String
deriving DecidableEq, Repr

/-- Body of the grade endpoint (back/schemas/answer_schemas.py `AnswerGrade`):
`grade` is validated 0..100 by pydantic, `status` is any `AnswerStatus`
(default GRADED). -/
structure AnswerGrade where
  grade : Nat
  teacher_comment : Option String
  status : AnswerStatus
deriving DecidableEq, Repr

/-! ## Python string helpers

`str.split(sep)` and `sep.join(...)` for a one-character separator, at the
character-list level, with Python semantics (splitting "" gives [""],
adjacent separators give empty segments). -/

/-- Python `s.split(c)` on the character list of `s` (single-char separator). -/
def splitChar (c : Char) : List Char → List (List Char)
  | [] => [[]]
  | a :: rest =>
    if a = c then [] :: splitChar c rest
    else
      match splitChar c rest with
      | [] => [[a]]
      | h :: t => (a :: h) :: t

/-- Python `url.split("/")`. -/
def pySplitSlash (s : String) : List String :=
  (splitChar '/' s.toList).map String.mk

/-- Python `sep.join(xs)` at the character-list level. -/
def pyJoin (sep : List Char) : List (List Char) → List Char
  | [] => []
  | [x] => x
  | x :: y :: t => x ++ sep ++ pyJoin sep (y :: t)

/-- Python `"/".join(xs)`. -/
def pyJoinSlash (xs : List String) : String :=
  String.mk (pyJoin ['/'] (xs.map String.toList))

/-- Python truthiness of an optional string (`if s:`). -/
def pyTruthyStr : Option String → Bool
  | some s => s ≠ ""
  | none => false

/-- Python f-string rendering of an `Optional[str]` (None prints "None"). -/
def pyStr : Option String → String
  | some s => s
  | none => "None"

/-! ## Object store adapter (back/utils/minio_manager.py) -/

/-- Connection settings read from the environment: MINIO_HOST, MINIO_PORT,
MINIO_BUCKET_NAME. -/
structure MinioConfig where
  host : String
  port : String
  bucket : String
deriving DecidableEq, Repr

/-- The URL returned by `MinioManager.upload_file`:
`f"http://{settings.MINIO_HOST}:{settings.MINIO_PORT}/{self.bucket_name}/{object_name}"`. -/
def upload_file_url (cfg : MinioConfig) (object_name : String) : String :=
  "http://" ++ cfg.host ++ ":" ++ cfg.port ++ "/" ++ cfg.bucket ++ "/" ++ object_name

/-- Object-name recovery used by `_delete_file_from_minio` in both services:
`object_name = "/".join(url.split("/")[4:])`. -/
def objectNameFromUrl (url : String) : String :=
  pyJoinSlash ((pySplitSlash url).drop 4)

/-! ## Shared attachment helpers -/

/-- Python extension computation used by the upload helpers:
`file.filename.split('.')[-1] if file.filename and '.' in file.filename else dflt`. -/
def fileExt (filename : Option String) (dflt : String) : String :=
  match filename with
  | some fn => if fn ≠ "" ∧ fn.contains '.' then String.mk ((splitChar '.' fn.toList).getLastD []) else dflt
  | none => dflt

/-- Photo content-type allow-list (`allowed_types` in both services). -/
def allowed_types : List String :=
  ["image/jpeg", "image/png", "image/gif", "image/webp"]

/-! ## TaskService (back/services/task_service.py)

State of the world a TaskService call touches: the tasks table, the
autoincrement counter, the blob store contents (object names, upload order),
and the trace of object names passed to `minio.delete_file`. Uploads succeed
(storage failures are outside the embedded claims); effects performed before
an exception is raised persist, as in the Python code. -/

structure TaskState where
  tasks : List Task
  nextTaskId : Nat
  store : List String
  deletedObjects : List String
deriving DecidableEq, Repr

/-- Object name minted by `TaskService._upload_files`:
`f"tasks/{task_id}/{folder}/{file_id}.{extension}"`, with the dot omitted
when the extension is empty. -/
def task_file_object_name (task_id : Nat) (folder : String) (file_id : String)
    (filename : Option String) : String :=
  let extension := fileExt filename ""
  if extension ≠ "" then
    "tasks/" ++ toString task_id ++ "/" ++ folder ++ "/" ++ file_id ++ "." ++ extension
  else
    "tasks/" ++ toString task_id ++ "/" ++ folder ++ "/" ++ file_id

/-- Object name minted by `TaskService._upload_photos`:
`f"tasks/{task_id}/photos/{file_id}.{extension}"` with default extension jpg. -/
def task_photo_object_name (task_id : Nat) (file_id : String)
    (filename : Option String) : String :=
  "tasks/" ++ toString task_id ++ "/photos/" ++ file_id ++ "." ++ fileExt filename "jpg"

/-- `TaskService._upload_files`: uploads each file in order and collects
`{"name": file.filename, "url": url}` metadata. `gen k` is the uuid minted
for the k-th file of the call. Returns (uploaded object names, metadata). -/
def task_upload_files (cfg : MinioConfig) (task_id : Nat) (folder : String)
    (gen : Nat → String) (k : Nat) : List UploadFile → List String × List FileMeta
  | [] => ([], [])
  | f :: rest =>
    let object_name := task_file_object_name task_id folder (gen k) f.filename
    let r := task_upload_files cfg task_id folder gen (k + 1) rest
    (object_name :: r.1,
      { name := f.filename, url := upload_file_url cfg object_name } :: r.2)

/-- `TaskService._upload_photos`: validates each photo's content-type against
the allow-list just before uploading it; the first disallowed photo raises
HTTP 400 with no further uploads, leaving earlier uploads in place.
Returns (uploaded object names, metadata or the raised error). -/
def task_upload_photos (cfg : MinioConfig) (task_id : Nat)
    (gen : Nat → String) (k : Nat) :
    List UploadFile → List String × Except HTTPError (List FileMeta)
  | [] => ([], Except.ok [])
  | p :: rest =>
    if allowed_types.contains p.content_type then
      let object_name := task_photo_object_name task_id (gen k) p.filename
      match task_upload_photos cfg task_id gen (k + 1) rest with
      | (ups, Except.ok metas) =>
        (object_name :: ups,
          Except.ok ({ name := p.filename, url := upload_file_url cfg object_name } :: metas))
      | (ups, Except.error e) => (object_name :: ups, Except.error e)
    else
      ([], Except.error
        { status_code := 400, detail := "File " ++ pyStr p.filename ++ " is not an image" })

/-- `TaskService._delete_file_from_minio`: recover the object name from the
stored url (skipped when the url is empty) and remove the blob; the deletion
is recorded in the trace. -/
def task_delete_file_from_minio (st : TaskState) (meta : FileMeta) : TaskState :=
  if meta.url ≠ "" then
    let object_name := objectNameFromUrl meta.url
    { st with
      store := st.store.filter (fun o => o ≠ object_name),
      deletedObjects := st.deletedObjects ++ [object_name] }
  else st

/-- Replace the row with the given id (repository `update`). -/
def replaceTask (tasks : List Task) (id : Nat) (t2 : Task) : List Task :=
  tasks.map (fun u => if u.id = id then t2 else u)

/-- `TaskService.create_task`. `genF`/`genP` supply the uuids minted for the
k-th file/photo of the call. Returns the state after all performed effects
and the result (created task, or the raised error). -/
def create_task (cfg : MinioConfig) (st : TaskState)
    (title description lesson_name lesson_type specialty : String) (course : Nat)
    (current_user : User) (deadline : Option Nat)
    (files photos : List UploadFile) (genF genP : Nat → String) :
    TaskState × Except HTTPError Task :=
  match st.tasks.find? (fun t => t.title == title) with
  | some _ =>
    (st, Except.error { status_code := 400, detail := "Task with this title already exists" })
  | none =>
    let task : Task :=
      { id := st.nextTaskId, title := title, description := description,
        lesson_name := lesson_name, lesson_type := lesson_type,
        checker := current_user.id, specialty := specialty, course := course,
        deadline := deadline, files_metadata := [], photos_metadata := [] }
    let st1 : TaskState :=
      { st with tasks := st.tasks ++ [task], nextTaskId := st.nextTaskId + 1 }
    let fstep : TaskState × Task :=
      if files.isEmpty then (st1, task)
      else
        let r := task_upload_files cfg task.id "files" genF 0 files
        let task2 := { task with files_metadata := r.2 }
        ({ st1 with tasks := replaceTask st1.tasks task.id task2,
                    store := st1.store ++ r.1 }, task2)
    let st2 := fstep.1
    let task2 := fstep.2
    if photos.isEmpty then (st2, Except.ok task2)
    else
      match task_upload_photos cfg task.id genP 0 photos with
      | (ups, Except.error e) =>
        ({ st2 with store := st2.store ++ ups }, Except.error e)
      | (ups, Except.ok metas) =>
        let task3 := { task2 with photos_metadata := metas }
        ({ st2 with tasks := replaceTask st2.tasks task.id task3,
                    store := st2.store ++ ups }, Except.ok task3)

/-- `update_data[field] = value if value is not None else unchanged` for a
required column: the patched value of one field. -/
def patchVal {α : Type} (old : α) : Option α → α
  | some v => v
  | none => old

/-- The same for the nullable deadline column (a supplied value always
overwrites; None leaves the stored value). -/
def patchDeadline (old : Option Nat) : Option Nat → Option Nat
  | some v => some v
  | none => old

/-- The duplicate-title re-check in `update_task`:
`if title and title != task.title: existing = get_by_title(title); if existing: raise`. -/
def update_title_conflict (tasks : List Task) (task : Task) (title : Option String) : Bool :=
  match title with
  | some t => t ≠ "" && t ≠ task.title && (tasks.find? (fun u => u.title == t)).isSome
  | none => false

/-- `TaskService.update_task`: patch fields are applied only when non-null;
new files/photos are uploaded and appended to the existing metadata lists;
the row is written back once at the end (and only if some update was given). -/
def update_task (cfg : MinioConfig) (st : TaskState) (task_id : Nat)
    (current_user : User)
    (title description lesson_name lesson_type specialty : Option String)
    (course : Option Nat) (deadline : Option Nat)
    (files photos : List UploadFile) (genF genP : Nat → String) :
    TaskState × Except HTTPError Task :=
  match st.tasks.find? (fun t => t.id == task_id) with
  | none => (st, Except.error { status_code := 404, detail := "Task not found" })
  | some task =>
    if task.checker ≠ current_user.id ∧ current_user.role ≠ UserRole.admin then
      (st, Except.error
        { status_code := 403, detail := "You don't have permission to update this task" })
    else if update_title_conflict st.tasks task title then
      (st, Except.error { status_code := 400, detail := "Task with this title already exists" })
    else
      let has_update : Bool :=
        title.isSome || description.isSome || lesson_name.isSome || lesson_type.isSome ||
        specialty.isSome || course.isSome || deadline.isSome ||
        !files.isEmpty || !photos.isEmpty
      let t1 : Task :=
        { task with
          title := patchVal task.title title,
          description := patchVal task.description description,
          lesson_name := patchVal task.lesson_name lesson_name,
          lesson_type := patchVal task.lesson_type lesson_type,
          specialty := patchVal task.specialty specialty,
          course := patchVal task.course course,
          deadline := patchDeadline task.deadline deadline }
      let fstep : TaskState × Task :=
        if files.isEmpty then (st, t1)
        else
          let r := task_upload_files cfg task.id "files" genF 0 files
          ({ st with store := st.store ++ r.1 },
            { t1 with files_metadata := task.files_metadata ++ r.2 })
      let st2 := fstep.1
      let t2 := fstep.2
      let pstep : TaskState × Except HTTPError Task :=
        if photos.isEmpty then (st2, Except.ok t2)
        else
          match task_upload_photos cfg task.id genP 0 photos with
          | (ups, Except.error e) =>
            ({ st2 with store := st2.store ++ ups }, Except.error e)
          | (ups, Except.ok metas) =>
            ({ st2 with store := st2.store ++ ups },
              Except.ok { t2 with photos_metadata := task.photos_metadata ++ metas })
      match pstep with
      | (st3, Except.error e) => (st3, Except.error e)
      | (st3, Except.ok t3) =>
        if has_update then
          ({ st3 with tasks := replaceTask st3.tasks task_id t3 }, Except.ok t3)
        else
          (st3, Except.ok task)

/-- The scan loop of `delete_task_file`: iterates the metadata in order,
remembering the match (later matches overwrite earlier ones) and appending
every non-matching entry to the kept list. -/
def scan_files (file_name : String) (acc : Option FileMeta × List FileMeta) :
    List FileMeta → Option FileMeta × List FileMeta
  | [] => acc
  | m :: rest =>
    if m.name = some file_name then scan_files file_name (some m, acc.2) rest
    else scan_files file_name (acc.1, acc.2 ++ [m]) rest

/-- `TaskService.delete_task_file`: authorization, then the scan loop over
`files_metadata`, then blob deletion and a single row update with the kept
entries. -/
def delete_task_file (st : TaskState) (task_id : Nat) (file_name : String)
    (current_user : User) : TaskState × Except HTTPError Task :=
  match st.tasks.find? (fun t => t.id == task_id) with
  | none => (st, Except.error { status_code := 404, detail := "Task not found" })
  | some task =>
    if task.checker ≠ current_user.id ∧ current_user.role ≠ UserRole.admin then
      (st, Except.error
        { status_code := 403, detail := "You don't have permission to modify this task" })
    else if task.files_metadata.isEmpty then
      (st, Except.error { status_code := 404, detail := "No files found in this task" })
    else
      match scan_files file_name (none, []) task.files_metadata with
      | (none, _) =>
        (st, Except.error
          { status_code := 404, detail := "File '" ++ file_name ++ "' not found in task" })
      | (some file_to_delete, updated_files) =>
        let st2 := task_delete_file_from_minio st file_to_delete
        let t2 := { task with files_metadata := updated_files }
        ({ st2 with tasks := replaceTask st2.tasks task_id t2 }, Except.ok t2)

/-- `TaskService.get_task_by_id`. -/
def get_task_by_id (st : TaskState) (task_id : Nat) : Except HTTPError Task :=
  match st.tasks.find? (fun t => t.id == task_id) with
  | none => Except.error { status_code := 404, detail := "Task not found" }
  | some task => Except.ok task

/-! ## AnswerService (back/services/answer_service.py)

State touched by answer operations: the tasks table (read-only here), the
answers table, the autoincrement counter, the blob store and the deletion
trace. -/

structure AnswerState where
  tasks : List Task
  answers : List Answer
  nextAnswerId : Nat
  store : List String
  deletedObjects : List String
deriving DecidableEq, Repr

/-- Object name minted by `AnswerService._upload_files`. -/
def answer_file_object_name (answer_id : Nat) (file_id : String)
    (filename : Option String) : String :=
  let extension := fileExt filename ""
  if extension ≠ "" then
    "answers/" ++ toString answer_id ++ "/files/" ++ file_id ++ "." ++ extension
  else
    "answers/" ++ toString answer_id ++ "/files/" ++ file_id

/-- Object name minted by `AnswerService._upload_photos` (default ext jpg). -/
def answer_photo_object_name (answer_id : Nat) (file_id : String)
    (filename : Option String) : String :=
  "answers/" ++ toString answer_id ++ "/photos/" ++ file_id ++ "." ++ fileExt filename "jpg"

/-- `AnswerService._upload_files`. -/
def answer_upload_files (cfg : MinioConfig) (answer_id : Nat)
    (gen : Nat → String) (k : Nat) : List UploadFile → List String × List FileMeta
  | [] => ([], [])
  | f :: rest =>
    let object_name := answer_file_object_name answer_id (gen k) f.filename
    let r := answer_upload_files cfg answer_id gen (k + 1) rest
    (object_name :: r.1,
      { name := f.filename, url := upload_file_url cfg object_name } :: r.2)

/-- `AnswerService._upload_photos` (same allow-list and failure behaviour as
the task-side helper). -/
def answer_upload_photos (cfg : MinioConfig) (answer_id : Nat)
    (gen : Nat → String) (k : Nat) :
    List UploadFile → List String × Except HTTPError (List FileMeta)
  | [] => ([], Except.ok [])
  | p :: rest =>
    if allowed_types.contains p.content_type then
      let object_name := answer_photo_object_name answer_id (gen k) p.filename
      match answer_upload_photos cfg answer_id gen (k + 1) rest with
      | (ups, Except.ok metas) =>
        (object_name :: ups,
          Except.ok ({ name := p.filename, url := upload_file_url cfg object_name } :: metas))
      | (ups, Except.error e) => (object_name :: ups, Except.error e)
    else
      ([], Except.error
        { status_code := 400, detail := "File " ++ pyStr p.filename ++ " is not an image" })

/-- Replace the answer row with the given id (repository `update`). -/
def replaceAnswer (answers : List Answer) (id : Nat) (a2 : Answer) : List Answer :=
  answers.map (fun u => if u.id = id then a2 else u)

/-- The `answer_data` row create_answer inserts: status SUBMITTED, empty
metadata lists, no grade/comment yet. -/
def new_answer (n task_id student_id : Nat) (message : String) : Answer :=
  { id := n, task_id := task_id, student_id := student_id, message := message,
    status := AnswerStatus.SUBMITTED, grade := none, teacher_comment := none,
    graded_at := none, files_metadata := [], photos_metadata := [] }

/-- `AnswerService.create_answer`: the task must exist (404), the
(task, student) pair must not already have an answer (the pre-insert
existence check raises HTTP 400), then the row is created with status
SUBMITTED and attachments are uploaded and written back. -/
def create_answer (cfg : MinioConfig) (st : AnswerState) (task_id : Nat)
    (message : String) (current_user : User)
    (files photos : List UploadFile) (genF genP : Nat → String) :
    AnswerState × Except HTTPError Answer :=
  match st.tasks.find? (fun t => t.id == task_id) with
  | none => (st, Except.error { status_code := 404, detail := "Task not found" })
  | some _ =>
    match st.answers.find?
        (fun a => a.task_id == task_id && a.student_id == current_user.id) with
    | some _ =>
      (st, Except.error
        { status_code := 400, detail := "You have already submitted an answer for this task" })
    | none =>
      let answer : Answer := new_answer st.nextAnswerId task_id current_user.id message
      let st1 : AnswerState :=
        { st with answers := st.answers ++ [answer], nextAnswerId := st.nextAnswerId + 1 }
      let fstep : AnswerState × Answer :=
        if files.isEmpty then (st1, answer)
        else
          let r := answer_upload_files cfg answer.id genF 0 files
          let a2 := { answer with files_metadata := r.2 }
          ({ st1 with answers := replaceAnswer st1.answers answer.id a2,
                      store := st1.store ++ r.1 }, a2)
      let st2 := fstep.1
      let a2 := fstep.2
      if photos.isEmpty then (st2, Except.ok a2)
      else
        match answer_upload_photos cfg answer.id genP 0 photos with
        | (ups, Except.error e) =>
          ({ st2 with store := st2.store ++ ups }, Except.error e)
        | (ups, Except.ok metas) =>
          let a3 := { a2 with photos_metadata := metas }
          ({ st2 with answers := replaceAnswer st2.answers answer.id a3,
                      store := st2.store ++ ups }, Except.ok a3)

/-- `AnswerService.update_answer`: 404 if absent; 403 unless owner or ADMIN;
400 unless status is SUBMITTED; then message is replaced when given and new
attachments are appended; a single row update at the end when anything
changed. -/
def update_answer (cfg : MinioConfig) (st : AnswerState) (answer_id : Nat)
    (current_user : User) (message : Option String)
    (files photos : List UploadFile) (genF genP : Nat → String) :
    AnswerState × Except HTTPError Answer :=
  match st.answers.find? (fun a => a.id == answer_id) with
  | none => (st, Except.error { status_code := 404, detail := "Answer not found" })
  | some answer =>
    if answer.student_id ≠ current_user.id ∧ current_user.role ≠ UserRole.admin then
      (st, Except.error
        { status_code := 403, detail := "You don't have permission to update this answer" })
    else if answer.status ≠ AnswerStatus.SUBMITTED then
      (st, Except.error
        { status_code := 400, detail := "Cannot update answer that has been graded or returned" })
    else
      let has_update : Bool := message.isSome || !files.isEmpty || !photos.isEmpty
      let a1 : Answer := { answer with message := patchVal answer.message message }
      let fstep : AnswerState × Answer :=
        if files.isEmpty then (st, a1)
        else
          let r := answer_upload_files cfg answer.id genF 0 files
          ({ st with store := st.store ++ r.1 },
            { a1 with files_metadata := answer.files_metadata ++ r.2 })
      let st2 := fstep.1
      let a2 := fstep.2
      let pstep : AnswerState × Except HTTPError Answer :=
        if photos.isEmpty then (st2, Except.ok a2)
        else
          match answer_upload_photos cfg answer.id genP 0 photos with
          | (ups, Except.error e) =>
            ({ st2 with store := st2.store ++ ups }, Except.error e)
          | (ups, Except.ok metas) =>
            ({ st2 with store := st2.store ++ ups },
              Except.ok { a2 with photos_metadata := answer.photos_metadata ++ metas })
      match pstep with
      | (st3, Except.error e) => (st3, Except.error e)
      | (st3, Except.ok a3) =>
        if has_update then
          ({ st3 with answers := replaceAnswer st3.answers answer_id a3 }, Except.ok a3)
        else
          (st3, Except.ok answer)

/-- `AnswerService.grade_answer`: 404 if absent; 403 unless the owning task's
checker or ADMIN; then grade, teacher_comment, status (all caller-supplied)
and graded_at are written. The Python code dereferences the owning task
without a null check; the none branch models the uncaught AttributeError
that an orphaned answer would produce (unreachable given referential
integrity). `now` is the grading timestamp. -/
def grade_answer (st : AnswerState) (answer_id : Nat) (grade_data : AnswerGrade)
    (current_user : User) (now : Nat) : AnswerState × Except HTTPError Answer :=
  match st.answers.find? (fun a => a.id == answer_id) with
  | none => (st, Except.error { status_code := 404, detail := "Answer not found" })
  | some answer =>
    match st.tasks.find? (fun t => t.id == answer.task_id) with
    | none => (st, Except.error { status_code := 500, detail := "AttributeError" })
    | some task =>
      if task.checker ≠ current_user.id ∧ current_user.role ≠ UserRole.admin then
        (st, Except.error
          { status_code := 403, detail := "You don't have permission to grade this answer" })
      else
        let a2 : Answer :=
          { answer with grade := some grade_data.grade,
                        teacher_comment := grade_data.teacher_comment,
                        status := grade_data.status,
                        graded_at := some now }
        ({ st with answers := replaceAnswer st.answers answer_id a2 }, Except.ok a2)

/-- The per-item body of the cascade-deletion loops
(`_delete_file_from_minio` on an answer attachment, failures swallowed). -/
def answer_delete_one (s : AnswerState) (meta : FileMeta) : AnswerState :=
  if meta.url ≠ "" then
    let object_name := objectNameFromUrl meta.url
    { s with store := s.store.filter (fun o => o ≠ object_name),
             deletedObjects := s.deletedObjects ++ [object_name] }
  else s

/-- The loop of `AnswerService._delete_answer_files` over a metadata list. -/
def answer_delete_files_go (st : AnswerState) : List FileMeta → AnswerState
  | [] => st
  | meta :: rest => answer_delete_files_go (answer_delete_one st meta) rest

/-- Best-effort cascade deletion of an answer's blobs
(`AnswerService._delete_answer_files`): every stored url is mapped back to
its object name and removed; per-item failures are swallowed in Python and
cannot occur in the model. -/
def answer_delete_files (st : AnswerState) (answer : Answer) : AnswerState :=
  answer_delete_files_go st (answer.files_metadata ++ answer.photos_metadata)

/-- `AnswerService.delete_answer`: 404 if absent; 403 unless owner or ADMIN;
400 unless status is SUBMITTED; then cascade blob cleanup and row deletion. -/
def delete_answer (st : AnswerState) (answer_id : Nat) (current_user : User) :
    AnswerState × Except HTTPError Unit :=
  match st.answers.find? (fun a => a.id == answer_id) with
  | none => (st, Except.error { status_code := 404, detail := "Answer not found" })
  | some answer =>
    if answer.student_id ≠ current_user.id ∧ current_user.role ≠ UserRole.admin then
      (st, Except.error
        { status_code := 403, detail := "You don't have permission to delete this answer" })
    else if answer.status ≠ AnswerStatus.SUBMITTED then
      (st, Except.error
        { status_code := 400, detail := "Cannot delete answer that has been graded" })
    else
      let st2 := answer_delete_files st answer
      ({ st2 with answers := st2.answers.filter (fun a => a.id ≠ answer_id) },
        Except.ok ())

/-! ## UserService.delete_own_account (back/services/user_service.py) -/

/-- `BaseRepository.delete` for the users table: 404 when the id does not
resolve, otherwise the row is removed. -/
def user_repo_delete (users : List User) (id : Nat) : Except HTTPError (List User) :=
  match users.find? (fun u => u.id == id) with
  | none => Except.error { status_code := 404, detail := "Item not found" }
  | some _ => Except.ok (users.filter (fun u => u.id ≠ id))

/-- `UserService.delete_own_account`: when the account has a (truthy) local
password hash the supplied password must verify against it (HTTP 400
otherwise); accounts without a local hash skip verification entirely.
`verify` is the external password checker collaborator. -/
def delete_own_account (verify : String → String → Bool) (users : List User)
    (user : User) (password : String) : Except HTTPError (List User) :=
  if pyTruthyStr user.hashed_password then
    if ! verify password (user.hashed_password.getD "") then
      Except.error { status_code := 400, detail := "Incorrect password" }
    else user_repo_delete users user.id
  else user_repo_delete users user.id

/-! ## Reachability over sequential answer operations -/

/-- The (task, student) pair of an answer. -/
def pairKey (a : Answer) : Nat × Nat := (a.task_id, a.student_id)

/-- No two rows share a (task, student) pair. -/
def DistinctPairs (l : List Answer) : Prop :=
  l.Pairwise (fun a b => pairKey a ≠ pairKey b)

/-- No two rows share an id. -/
def DistinctIds (l : List Answer) : Prop :=
  l.Pairwise (fun a b => a.id ≠ b.id)

/-- Every row id is below the autoincrement counter. -/
def IdsBound (st : AnswerState) : Prop :=
  ∀ a ∈ st.answers, a.id < st.nextAnswerId

/-- The answers-table invariant, stated about a list and a counter. -/
def AnswerInvL (l : List Answer) (n : Nat) : Prop :=
  DistinctIds l ∧ (∀ a ∈ l, a.id < n) ∧ DistinctPairs l

/-- The answers-table invariant maintained by the service operations. -/
def AnswerInv (st : AnswerState) : Prop :=
  AnswerInvL st.answers st.nextAnswerId

/-- One exposed AnswerService operation, with arbitrary arguments. -/
inductive AStep (cfg : MinioConfig) : AnswerState → AnswerState → Prop where
  | create (st : AnswerState) (task_id : Nat) (message : String) (u : User)
      (files photos : List UploadFile) (genF genP : Nat → String) :
      AStep cfg st (create_answer cfg st task_id message u files photos genF genP).1
  | update (st : AnswerState) (answer_id : Nat) (u : User) (message : Option String)
      (files photos : List UploadFile) (genF genP : Nat → String) :
      AStep cfg st (update_answer cfg st answer_id u message files photos genF genP).1
  | grade (st : AnswerState) (answer_id : Nat) (g : AnswerGrade) (u : User) (now : Nat) :
      AStep cfg st (grade_answer st answer_id g u now).1
  | delete (st : AnswerState) (answer_id : Nat) (u : User) :
      AStep cfg st (delete_answer st answer_id u).1

/-- States reachable by sequential answer operations from an empty answers
table (any tasks table, any counter). -/
inductive Reach (cfg : MinioConfig) : AnswerState → Prop where
  | init (tasks : List Task) (n : Nat) :
      Reach cfg { tasks := tasks, answers := [], nextAnswerId := n,
                  store := [], deletedObjects := [] }
  | step (st st' : AnswerState) : Reach cfg st → AStep cfg st st' → Reach cfg st'

/-- One answer operation whose grade calls never supply status SUBMITTED
(the guarded step relation the amended temporal claim is about). -/
inductive GStep (cfg : MinioConfig) : AnswerState → AnswerState → Prop where
  | create (st : AnswerState) (task_id : Nat) (message : String) (u : User)
      (files photos : List UploadFile) (genF genP : Nat → String) :
      GStep cfg st (create_answer cfg st task_id message u files photos genF genP).1
  | update (st : AnswerState) (answer_id : Nat) (u : User) (message : Option String)
      (files photos : List UploadFile) (genF genP : Nat → String) :
      GStep cfg st (update_answer cfg st answer_id u message files photos genF genP).1
  | grade (st : AnswerState) (answer_id : Nat) (g : AnswerGrade) (u : User) (now : Nat) :
      g.status ≠ AnswerStatus.SUBMITTED →
      GStep cfg st (grade_answer st answer_id g u now).1
  | delete (st : AnswerState) (answer_id : Nat) (u : User) :
      GStep cfg st (delete_answer st answer_id u).1

/-! ## Verification helper definitions and concrete fixtures -/

/-- Object names minted for a batch of photos that all pass validation,
starting at uuid index k. -/
def photo_obj_names (task_id : Nat) (gen : Nat → String) (k : Nat) :
    List UploadFile → List String
  | [] => []
  | p :: rest =>
    task_photo_object_name task_id (gen k) p.filename :: photo_obj_names task_id gen (k + 1) rest

/-- The last metadata entry whose name equals the given file name (the entry
the scan loop of delete_task_file ends up holding). -/
def lastMatch (n : String) (l : List FileMeta) : Option FileMeta :=
  (l.filter (fun m => decide (m.name = some n))).getLast?

/-- First-of-two option fallback. -/
def orElseOpt (o a : Option FileMeta) : Option FileMeta :=
  match o with
  | some m => some m
  | none => a

/-- Concrete store settings used by witnesses. -/
def cfgW : MinioConfig := { host := "localhost", port := "9000", bucket := "bkt" }

/-- A teacher (id 2), a student (id 3) and an unrelated student (id 42). -/
def teacherW : User := { id := 2, role := UserRole.teacher }

def studentW : User := { id := 3, role := UserRole.student }

def otherW : User := { id := 42, role := UserRole.student }

/-- A plain document upload, a valid photo upload and an invalid photo. -/
def fileW : UploadFile := { filename := some "a.pdf", content_type := "application/pdf" }

def photoW : UploadFile := { filename := some "p.png", content_type := "image/png" }

def badW : UploadFile := { filename := some "t.txt", content_type := "text/plain" }

/-- A deterministic stand-in for the uuid generator. -/
def genW : Nat → String := fun k => "u" ++ toString k

/-- An empty task table with autoincrement counter 1. -/
def emptyTasksW : TaskState :=
  { tasks := [], nextTaskId := 1, store := [], deletedObjects := [] }

/-- A task of teacher 2 (id 9) with no attachments. -/
def taskW : Task :=
  { id := 9, title := "X", description := "d", lesson_name := "l",
    lesson_type := "LECTURE", checker := 2, specialty := "s", course := 1,
    deadline := none, files_metadata := [], photos_metadata := [] }

/-- A task (id 5) of teacher 2 holding two attachments named "a" (urls ending
u1.x and u3.x) around one named "b" (url ending u2.x). -/
def taskDupW : Task :=
  { id := 5, title := "T", description := "d", lesson_name := "l",
    lesson_type := "LECTURE", checker := 2, specialty := "s", course := 1,
    deadline := none,
    files_metadata :=
      [ { name := some "a", url := upload_file_url cfgW "tasks/5/files/u1.x" },
        { name := some "b", url := upload_file_url cfgW "tasks/5/files/u2.x" },
        { name := some "a", url := upload_file_url cfgW "tasks/5/files/u3.x" } ],
    photos_metadata := [] }

/-- The task table holding exactly `taskDupW`, with its blobs in the store. -/
def stDupW : TaskState :=
  { tasks := [taskDupW], nextTaskId := 6,
    store := ["tasks/5/files/u1.x", "tasks/5/files/u2.x", "tasks/5/files/u3.x"],
    deletedObjects := [] }

/-- The task table holding exactly `taskW`. -/
def stTaskW : TaskState :=
  { tasks := [taskW], nextTaskId := 10, store := [], deletedObjects := [] }

/-- Answer-service state: task `taskW` exists, no answers yet. -/
def ansInitW : AnswerState :=
  { tasks := [taskW], answers := [], nextAnswerId := 0, store := [], deletedObjects := [] }

/-- State after student 3 submits an answer to task 9. -/
def ansSubmittedW : AnswerState :=
  (create_answer cfgW ansInitW 9 "done" studentW [] [] genW genW).1

/-- State after the checker grades that answer GRADED (grade 85). -/
def ansGradedW : AnswerState :=
  (grade_answer ansSubmittedW 0
    { grade := 85, teacher_comment := none, status := AnswerStatus.GRADED }
    teacherW 100).1

/-- State after the checker "grades" the same answer again with
caller-supplied status SUBMITTED. -/
def ansResubmittedW : AnswerState :=
  (grade_answer ansGradedW 0
    { grade := 85, teacher_comment := none, status := AnswerStatus.SUBMITTED }
    teacherW 101).1

/-! ## Lemmas: Python split/join round trip -/

theorem splitChar_ne_nil (c : Char) (l : List Char) : splitChar c l ≠ [] := by
  cases l with
  | nil => simp [splitChar]
  | cons a rest =>
    simp only [splitChar]
    split
    · simp
    · split
      · simp
      · simp

theorem splitChar_cons_self (c : Char) (l : List Char) :
    splitChar c (c :: l) = [] :: splitChar c l := by
  simp [splitChar]

theorem splitChar_append_cons (c : Char) (a l : List Char) (h : c ∉ a) :
    splitChar c (a ++ c :: l) = a :: splitChar c l := by
  induction a with
  | nil => simp [splitChar]
  | cons x a ih =>
    have hx : x ≠ c := fun hxc => h (by simp [hxc])
    have ha : c ∉ a := fun hc => h (by simp [hc])
    have := ih ha
    simp only [List.cons_append, splitChar, if_neg (by simpa using hx)]
    rw [show List.append a (c :: l) = a ++ (c :: l) from rfl, this]

theorem pyJoin_splitChar (c : Char) (l : List Char) :
    pyJoin [c] (splitChar c l) = l := by
  induction l with
  | nil => simp [splitChar, pyJoin]
  | cons a rest ih =>
    by_cases hac : a = c
    · subst hac
      rw [splitChar_cons_self]
      rcases hsp : splitChar a rest with _ | ⟨h, t⟩
      · exact absurd hsp (splitChar_ne_nil a rest)
      · rw [hsp] at ih
        simp only [pyJoin]
        simpa using ih
    · simp only [splitChar, if_neg hac]
      rcases hsp : splitChar c rest with _ | ⟨h, t⟩
      · exact absurd hsp (splitChar_ne_nil c rest)
      · rw [hsp] at ih
        cases t with
        | nil => simpa [pyJoin] using congrArg (fun z => a :: z) ih
        | cons t0 ts =>
          simp only [pyJoin] at ih ⊢
          simpa using congrArg (fun z => a :: z) ih

theorem toList_mk (l : List Char) : (String.mk l).toList = l := rfl

theorem mk_toList (s : String) : String.mk s.toList = s := by
  cases s
  rfl

theorem toList_append (s t : String) : (s ++ t).toList = s.toList ++ t.toList := by
  simp [String.toList, String.data_append]

/-- C9: uploading under an object name and later stripping the first four
slash-separated URL segments recovers exactly that object name, provided the
configured host, port and bucket contain no slash. -/
theorem C9_upload_delete_objectname_roundtrip (cfg : MinioConfig) (n : String)
    (hhost : '/' ∉ cfg.host.toList) (hport : '/' ∉ cfg.port.toList)
    (hbucket : '/' ∉ cfg.bucket.toList) :
    objectNameFromUrl (upload_file_url cfg n) = n := by
  have hseg1 : ('/' : Char) ∉ (['h', 't', 't', 'p', ':'] : List Char) := by decide
  have hseg3 : ('/' : Char) ∉ cfg.host.toList ++ ':' :: cfg.port.toList := by
    intro hmem
    rcases List.mem_append.mp hmem with h | h
    · exact hhost h
    · rcases List.mem_cons.mp h with h | h
      · exact absurd h (by decide)
      · exact hport h
  have h1 : ("http://" : String).toList = ['h', 't', 't', 'p', ':', '/', '/'] := rfl
  have h2 : (":" : String).toList = [':'] := rfl
  have h3 : ("/" : String).toList = ['/'] := rfl
  have hurl : (upload_file_url cfg n).toList =
      ['h', 't', 't', 'p', ':'] ++ '/' :: ('/' ::
        ((cfg.host.toList ++ ':' :: cfg.port.toList) ++ '/' ::
          (cfg.bucket.toList ++ '/' :: n.toList))) := by
    simp only [upload_file_url, toList_append, h1, h2, h3]
    simp
  have hsplit : splitChar '/' (upload_file_url cfg n).toList
      = ['h', 't', 't', 'p', ':'] :: [] :: (cfg.host.toList ++ ':' :: cfg.port.toList)
          :: cfg.bucket.toList :: splitChar '/' n.toList := by
    rw [hurl, splitChar_append_cons _ _ _ hseg1, splitChar_cons_self,
        splitChar_append_cons _ _ _ hseg3, splitChar_append_cons _ _ _ hbucket]
  unfold objectNameFromUrl pySplitSlash pyJoinSlash
  rw [hsplit]
  simp only [List.map_cons, List.drop_succ_cons, List.drop_zero, List.map_map]
  have hid : (String.toList ∘ String.mk) = id := by
    funext l
    simp [toList_mk]
  rw [hid, List.map_id, pyJoin_splitChar, mk_toList]

theorem C9_upload_delete_objectname_roundtrip_witness :
    ('/' ∉ ("localhost" : String).toList ∧ '/' ∉ ("9000" : String).toList ∧
      '/' ∉ ("testmaker" : String).toList) ∧
    objectNameFromUrl
        (upload_file_url
          { host := "localhost", port := "9000", bucket := "testmaker" }
          "tasks/1/files/abc.pdf")
      = "tasks/1/files/abc.pdf" :=
  ⟨by decide,
    C9_upload_delete_objectname_roundtrip
      { host := "localhost", port := "9000", bucket := "testmaker" }
      "tasks/1/files/abc.pdf" (by decide) (by decide) (by decide)⟩

/-- C10: self-service account deletion skips password verification entirely
for accounts without a (truthy) local password hash; for accounts with a
local hash it succeeds exactly when the supplied password verifies, and
success removes the user row. -/
theorem C10_delete_own_account_password_check
    (verify : String → String → Bool) (users : List User) (user : User)
    (hfound : (users.find? (fun x => x.id == user.id)).isSome = true) :
    (pyTruthyStr user.hashed_password = false →
      ∀ password : String,
        delete_own_account verify users user password
          = Except.ok (users.filter (fun u => u.id ≠ user.id))) ∧
    (∀ h : String, user.hashed_password = some h → h ≠ "" →
      ∀ password : String,
        (verify password h = true →
          delete_own_account verify users user password
            = Except.ok (users.filter (fun u => u.id ≠ user.id))) ∧
        (verify password h = false →
          delete_own_account verify users user password
            = Except.error { status_code := 400, detail := "Incorrect password" })) := by
  have hdel : user_repo_delete users user.id
      = Except.ok (users.filter (fun u => u.id ≠ user.id)) := by
    unfold user_repo_delete
    rcases hfind : users.find? (fun x => x.id == user.id) with _ | u0
    · rw [hfind] at hfound
      simp at hfound
    · rw [hfind]
  constructor
  · intro hfalsy password
    unfold delete_own_account
    rw [hfalsy]
    simpa using hdel
  · intro h hh hne password
    have htruthy : pyTruthyStr user.hashed_password = true := by
      simp [pyTruthyStr, hh, hne]
    constructor
    · intro hv
      unfold delete_own_account
      rw [htruthy]
      simp only [if_true]
      rw [hh]
      simp [hv, hdel]
    · intro hv
      unfold delete_own_account
      rw [htruthy]
      simp only [if_true]
      rw [hh]
      simp [hv]

theorem C10_delete_own_account_password_check_witness :
    ((([{ id := 7, role := UserRole.student, hashed_password := none }] : List User).find?
        (fun x => x.id == 7)).isSome = true ∧
      pyTruthyStr (none : Option String) = false) ∧
    delete_own_account (fun p h => p == h)
        [{ id := 7, role := UserRole.student, hashed_password := none }]
        { id := 7, role := UserRole.student, hashed_password := none } "anything"
      = Except.ok [] :=
  ⟨⟨by decide, by decide⟩, by
    have := (C10_delete_own_account_password_check (fun p h => p == h)
      [{ id := 7, role := UserRole.student, hashed_password := none }]
      { id := 7, role := UserRole.student, hashed_password := none }
      (by decide)).1 (by decide) "anything"
    simpa using this⟩

/-! ## Lemmas: upload helpers -/

theorem task_upload_files_names (cfg : MinioConfig) (task_id : Nat) (folder : String)
    (gen : Nat → String) :
    ∀ (files : List UploadFile) (k : Nat),
      ((task_upload_files cfg task_id folder gen k files).2).map (fun m => m.name)
        = files.map (fun f => f.filename) := by
  intro files
  induction files with
  | nil => intro k; rfl
  | cons f rest ih =>
    intro k
    simp only [task_upload_files, List.map_cons]
    rw [ih (k + 1)]

theorem task_upload_files_length (cfg : MinioConfig) (task_id : Nat) (folder : String)
    (gen : Nat → String) :
    ∀ (files : List UploadFile) (k : Nat),
      ((task_upload_files cfg task_id folder gen k files).2).length = files.length := by
  intro files
  induction files with
  | nil => intro k; rfl
  | cons f rest ih =>
    intro k
    simp only [task_upload_files, List.length_cons]
    rw [ih (k + 1)]

theorem task_upload_photos_ok (cfg : MinioConfig) (task_id : Nat) (gen : Nat → String) :
    ∀ (photos : List UploadFile) (k : Nat),
      (∀ p ∈ photos, allowed_types.contains p.content_type = true) →
      ∃ metas : List FileMeta,
        task_upload_photos cfg task_id gen k photos
          = (photo_obj_names task_id gen k photos, Except.ok metas)
        ∧ metas.map (fun m => m.name) = photos.map (fun p => p.filename)
        ∧ metas.length = photos.length := by
  intro photos
  induction photos with
  | nil => intro k _; exact ⟨[], rfl, rfl, rfl⟩
  | cons p rest ih =>
    intro k hall
    have hp := hall p (by simp)
    rcases ih (k + 1) (fun q hq => hall q (by simp [hq])) with ⟨metas, heq, hnames, hlen⟩
    refine ⟨{ name := p.filename,
              url := upload_file_url cfg (task_photo_object_name task_id (gen k) p.filename) }
            :: metas, ?_, ?_, ?_⟩
    · simp only [task_upload_photos, hp, if_true, heq, photo_obj_names]
    · simp [hnames]
    · simp [hlen]

theorem task_upload_photos_bad (cfg : MinioConfig) (task_id : Nat) (gen : Nat → String)
    (bad : UploadFile) (rest : List UploadFile)
    (hbad : allowed_types.contains bad.content_type = false) :
    ∀ (good : List UploadFile) (k : Nat),
      (∀ p ∈ good, allowed_types.contains p.content_type = true) →
      task_upload_photos cfg task_id gen k (good ++ bad :: rest)
        = (photo_obj_names task_id gen k good,
            Except.error
              { status_code := 400,
                detail := "File " ++ pyStr bad.filename ++ " is not an image" }) := by
  intro good
  induction good with
  | nil =>
    intro k _
    simp only [List.nil_append, task_upload_photos, hbad, Bool.false_eq_true, if_false,
      photo_obj_names]
  | cons p rest2 ih =>
    intro k hall
    have hp := hall p (by simp)
    have hrec := ih (k + 1) (fun q hq => hall q (by simp [hq]))
    simp only [List.cons_append, task_upload_photos, hp, if_true, photo_obj_names]
    rw [show List.append rest2 (bad :: rest) = rest2 ++ (bad :: rest) from rfl, hrec]

/-! ## Lemmas: task table -/

theorem replaceTask_append_fresh (l : List Task) (t t2 : Task) (i : Nat)
    (hfresh : ∀ u ∈ l, u.id ≠ i) (ht : t.id = i) :
    replaceTask (l ++ [t]) i t2 = l ++ [t2] := by
  unfold replaceTask
  rw [List.map_append]
  congr 1
  · have h2 : List.map (fun u => if u.id = i then t2 else u) l = List.map id l :=
      List.map_congr_left (fun u hu => by simp [hfresh u hu])
    rw [h2, List.map_id]
  · simp [ht]

theorem find_task_append_fresh (l : List Task) (t : Task) (i : Nat)
    (hfresh : ∀ u ∈ l, u.id ≠ i) (ht : t.id = i) :
    (l ++ [t]).find? (fun x => x.id == i) = some t := by
  rw [List.find?_append]
  have h1 : l.find? (fun x => x.id == i) = none := by
    rw [List.find?_eq_none]
    intro u hu
    simp [hfresh u hu]
  rw [h1]
  simp [ht]

theorem isEmpty_append_cons {α : Type} (good : List α) (bad : α) (rest : List α) :
    (good ++ bad :: rest).isEmpty = false := by
  cases good <;> rfl

/-- C5: in both create_task and update_task, the first photo with a
disallowed content-type aborts the batch with HTTP 400 before that photo or
any later photo is uploaded; no photos_metadata from the batch is persisted
onto the Task, while the earlier photos of the batch and the files of the
same call stay uploaded in the store (no rollback). -/
theorem C5_photo_validation_boundary :
    (∀ (cfg : MinioConfig) (st : TaskState)
        (title description lesson_name lesson_type specialty : String) (course : Nat)
        (u : User) (deadline : Option Nat) (files : List UploadFile)
        (good : List UploadFile) (bad : UploadFile) (rest : List UploadFile)
        (genF genP : Nat → String),
      st.tasks.find? (fun t => t.title == title) = none →
      (∀ t ∈ st.tasks, t.id ≠ st.nextTaskId) →
      (∀ p ∈ good, allowed_types.contains p.content_type = true) →
      allowed_types.contains bad.content_type = false →
      (create_task cfg st title description lesson_name lesson_type specialty course u
          deadline files (good ++ bad :: rest) genF genP).2
        = Except.error
            { status_code := 400,
              detail := "File " ++ pyStr bad.filename ++ " is not an image" } ∧
      ∃ task' : Task,
        (create_task cfg st title description lesson_name lesson_type specialty course u
            deadline files (good ++ bad :: rest) genF genP).1.tasks
          = st.tasks ++ [task'] ∧
        task'.photos_metadata = [] ∧
        task'.files_metadata = (task_upload_files cfg st.nextTaskId "files" genF 0 files).2 ∧
        (create_task cfg st title description lesson_name lesson_type specialty course u
            deadline files (good ++ bad :: rest) genF genP).1.store
          = st.store ++ (task_upload_files cfg st.nextTaskId "files" genF 0 files).1
              ++ photo_obj_names st.nextTaskId genP 0 good) ∧
    (∀ (cfg : MinioConfig) (st : TaskState) (task_id : Nat) (u : User)
        (title description lesson_name lesson_type specialty : Option String)
        (course deadline : Option Nat) (files : List UploadFile)
        (good : List UploadFile) (bad : UploadFile) (rest : List UploadFile)
        (genF genP : Nat → String) (task : Task),
      st.tasks.find? (fun t => t.id == task_id) = some task →
      (task.checker = u.id ∨ u.role = UserRole.admin) →
      update_title_conflict st.tasks task title = false →
      (∀ p ∈ good, allowed_types.contains p.content_type = true) →
      allowed_types.contains bad.content_type = false →
      update_task cfg st task_id u title description lesson_name lesson_type specialty
          course deadline files (good ++ bad :: rest) genF genP
        = ({ st with store := st.store
                ++ (task_upload_files cfg task.id "files" genF 0 files).1
                ++ photo_obj_names task.id genP 0 good },
            Except.error
              { status_code := 400,
                detail := "File " ++ pyStr bad.filename ++ " is not an image" })) := by
  constructor
  · intro cfg st title description lesson_name lesson_type specialty course u deadline
      files good bad rest genF genP htitle hfresh hgood hbad
    have hbatch := task_upload_photos_bad cfg st.nextTaskId genP bad rest hbad good 0 hgood
    have hpe := isEmpty_append_cons good bad rest
    by_cases hf : files.isEmpty
    · have hfe : files = [] := List.isEmpty_iff.mp hf
      subst hfe
      constructor
      · simp only [create_task, htitle, hf, if_true, hpe, Bool.false_eq_true, if_false,
          hbatch]
      · refine
          ⟨{ id := st.nextTaskId, title := title, description := description,
             lesson_name := lesson_name, lesson_type := lesson_type, checker := u.id,
             specialty := specialty, course := course, deadline := deadline,
             files_metadata := [], photos_metadata := [] }, ?_, rfl, rfl, ?_⟩
        · simp only [create_task, htitle, hf, if_true, hpe, Bool.false_eq_true, if_false,
            hbatch]
        · simp only [create_task, htitle, hf, if_true, hpe, Bool.false_eq_true, if_false,
            hbatch, task_upload_files]
          simp
    · constructor
      · simp only [create_task, htitle, hf, Bool.false_eq_true, if_false, hpe, hbatch]
      · refine
          ⟨{ id := st.nextTaskId, title := title, description := description,
             lesson_name := lesson_name, lesson_type := lesson_type, checker := u.id,
             specialty := specialty, course := course, deadline := deadline,
             files_metadata := (task_upload_files cfg st.nextTaskId "files" genF 0 files).2,
             photos_metadata := [] }, ?_, rfl, rfl, ?_⟩
        · simp only [create_task, htitle, hf, Bool.false_eq_true, if_false, hpe, hbatch]
          rw [replaceTask_append_fresh _ _ _ _ hfresh rfl]
        · simp only [create_task, htitle, hf, Bool.false_eq_true, if_false, hpe, hbatch]
  · intro cfg st task_id u title description lesson_name lesson_type specialty course
      deadline files good bad rest genF genP task hfind hauth hconf hgood hbad
    have hbatch := task_upload_photos_bad cfg task.id genP bad rest hbad good 0 hgood
    have hpe := isEmpty_append_cons good bad rest
    have hauth2 : ¬(task.checker ≠ u.id ∧ u.role ≠ UserRole.admin) := by
      rcases hauth with h | h
      · exact fun hc => hc.1 h
      · exact fun hc => hc.2 h
    by_cases hf : files.isEmpty
    · have hfe : files = [] := List.isEmpty_iff.mp hf
      subst hfe
      simp only [update_task, hfind, hauth2, if_false, hconf, Bool.false_eq_true, hf,
        if_true, hpe, hbatch, task_upload_files]
      simp
    · simp only [update_task, hfind, hauth2, if_false, hconf, Bool.false_eq_true, hf,
        hpe, hbatch]

theorem C5_photo_validation_boundary_witness :
    (emptyTasksW.tasks.find? (fun t => t.title == "T") = none ∧
      (∀ t ∈ emptyTasksW.tasks, t.id ≠ emptyTasksW.nextTaskId) ∧
      (∀ p ∈ [photoW], allowed_types.contains p.content_type = true) ∧
      allowed_types.contains badW.content_type = false) ∧
    ((create_task cfgW emptyTasksW "T" "d" "l" "LECTURE" "s" 1 teacherW none [fileW]
        ([photoW] ++ badW :: []) genW genW).2
      = Except.error
          { status_code := 400,
            detail := "File " ++ pyStr badW.filename ++ " is not an image" } ∧
      ∃ task' : Task,
        (create_task cfgW emptyTasksW "T" "d" "l" "LECTURE" "s" 1 teacherW none [fileW]
            ([photoW] ++ badW :: []) genW genW).1.tasks
          = emptyTasksW.tasks ++ [task'] ∧
        task'.photos_metadata = [] ∧
        task'.files_metadata
          = (task_upload_files cfgW emptyTasksW.nextTaskId "files" genW 0 [fileW]).2 ∧
        (create_task cfgW emptyTasksW "T" "d" "l" "LECTURE" "s" 1 teacherW none [fileW]
            ([photoW] ++ badW :: []) genW genW).1.store
          = emptyTasksW.store
              ++ (task_upload_files cfgW emptyTasksW.nextTaskId "files" genW 0 [fileW]).1
              ++ photo_obj_names emptyTasksW.nextTaskId genW 0 [photoW]) :=
  ⟨⟨by decide, by decide, by decide, by decide⟩,
    C5_photo_validation_boundary.1 cfgW emptyTasksW "T" "d" "l" "LECTURE" "s" 1 teacherW
      none [fileW] [photoW] badW [] genW genW (by decide) (by decide) (by decide) (by decide)⟩

/-- C7: creating a task with N uploaded files produces a files_metadata list
of length N, in upload order, whose i-th entry's name is the i-th file's
filename; reading the task back returns exactly that list. -/
theorem C7_create_files_roundtrip (cfg : MinioConfig) (st : TaskState)
    (title description lesson_name lesson_type specialty : String) (course : Nat)
    (u : User) (deadline : Option Nat) (files : List UploadFile) (genF genP : Nat → String)
    (htitle : st.tasks.find? (fun t => t.title == title) = none)
    (hfresh : ∀ t ∈ st.tasks, t.id ≠ st.nextTaskId) :
    ∃ task' : Task,
      (create_task cfg st title description lesson_name lesson_type specialty course u
          deadline files [] genF genP).2 = Except.ok task' ∧
      task'.files_metadata.length = files.length ∧
      task'.files_metadata.map (fun m => m.name) = files.map (fun f => f.filename) ∧
      get_task_by_id
          (create_task cfg st title description lesson_name lesson_type specialty course u
            deadline files [] genF genP).1 task'.id
        = Except.ok task' := by
  by_cases hf : files.isEmpty
  · have hfe : files = [] := List.isEmpty_iff.mp hf
    subst hfe
    refine
      ⟨{ id := st.nextTaskId, title := title, description := description,
         lesson_name := lesson_name, lesson_type := lesson_type, checker := u.id,
         specialty := specialty, course := course, deadline := deadline,
         files_metadata := [], photos_metadata := [] }, ?_, rfl, rfl, ?_⟩
    · simp only [create_task, htitle, List.isEmpty_nil, if_true]
    · simp only [create_task, htitle, List.isEmpty_nil, if_true]
      unfold get_task_by_id
      simp only []
      rw [find_task_append_fresh _ _ _ hfresh rfl]
  · refine
      ⟨{ id := st.nextTaskId, title := title, description := description,
         lesson_name := lesson_name, lesson_type := lesson_type, checker := u.id,
         specialty := specialty, course := course, deadline := deadline,
         files_metadata := (task_upload_files cfg st.nextTaskId "files" genF 0 files).2,
         photos_metadata := [] }, ?_, ?_, ?_, ?_⟩
    · simp only [create_task, htitle, hf, Bool.false_eq_true, if_false, List.isEmpty_nil,
        if_true]
    · exact task_upload_files_length cfg st.nextTaskId "files" genF files 0
    · exact task_upload_files_names cfg st.nextTaskId "files" genF files 0
    · simp only [create_task, htitle, hf, Bool.false_eq_true, if_false, List.isEmpty_nil,
        if_true]
      unfold get_task_by_id
      simp only []
      rw [replaceTask_append_fresh _ _ _ _ hfresh rfl,
        find_task_append_fresh _ _ _ hfresh rfl]

theorem C7_create_files_roundtrip_witness :
    (emptyTasksW.tasks.find? (fun t => t.title == "T") = none ∧
      (∀ t ∈ emptyTasksW.tasks, t.id ≠ emptyTasksW.nextTaskId)) ∧
    ∃ task' : Task,
      (create_task cfgW emptyTasksW "T" "d" "l" "LECTURE" "s" 1 teacherW none
          [fileW, photoW] [] genW genW).2 = Except.ok task' ∧
      task'.files_metadata.length = ([fileW, photoW] : List UploadFile).length ∧
      task'.files_metadata.map (fun m => m.name)
        = ([fileW, photoW] : List UploadFile).map (fun f => f.filename) ∧
      get_task_by_id
          (create_task cfgW emptyTasksW "T" "d" "l" "LECTURE" "s" 1 teacherW none
            [fileW, photoW] [] genW genW).1 task'.id
        = Except.ok task' :=
  ⟨⟨by decide, by decide⟩,
    C7_create_files_roundtrip cfgW emptyTasksW "T" "d" "l" "LECTURE" "s" 1 teacherW none
      [fileW, photoW] genW genW (by decide) (by decide)⟩

/-- C8: a successful update_task applies exactly the non-null patch fields,
leaves null/absent fields unchanged, and appends newly uploaded files/photos
after the existing metadata entries without removing or reordering them. -/
theorem C8_update_patch_and_append (cfg : MinioConfig) (st : TaskState) (task_id : Nat)
    (u : User) (title description lesson_name lesson_type specialty : Option String)
    (course deadline : Option Nat) (files photos : List UploadFile)
    (genF genP : Nat → String) (task : Task)
    (hfind : st.tasks.find? (fun t => t.id == task_id) = some task)
    (hauth : task.checker = u.id ∨ u.role = UserRole.admin)
    (hconf : update_title_conflict st.tasks task title = false)
    (hphotos : ∀ p ∈ photos, allowed_types.contains p.content_type = true) :
    ∃ (t' : Task) (newPhotos : List FileMeta),
      (update_task cfg st task_id u title description lesson_name lesson_type specialty
          course deadline files photos genF genP).2 = Except.ok t' ∧
      task_upload_photos cfg task.id genP 0 photos
        = (photo_obj_names task.id genP 0 photos, Except.ok newPhotos) ∧
      t'.title = patchVal task.title title ∧
      t'.description = patchVal task.description description ∧
      t'.lesson_name = patchVal task.lesson_name lesson_name ∧
      t'.lesson_type = patchVal task.lesson_type lesson_type ∧
      t'.specialty = patchVal task.specialty specialty ∧
      t'.course = patchVal task.course course ∧
      t'.deadline = patchDeadline task.deadline deadline ∧
      t'.id = task.id ∧ t'.checker = task.checker ∧
      t'.files_metadata
        = task.files_metadata ++ (task_upload_files cfg task.id "files" genF 0 files).2 ∧
      t'.photos_metadata = task.photos_metadata ++ newPhotos := by
  have hauth2 : ¬(task.checker ≠ u.id ∧ u.role ≠ UserRole.admin) := by
    rcases hauth with h | h
    · exact fun hc => hc.1 h
    · exact fun hc => hc.2 h
  rcases task_upload_photos_ok cfg task.id genP photos 0 hphotos with
    ⟨metas, hmet, hnames, hlen⟩
  by_cases hp : photos.isEmpty
  · have hpe : photos = [] := List.isEmpty_iff.mp hp
    subst hpe
    have hmet0 : metas = [] := by
      have h2 := hmet.symm
      simp [task_upload_photos] at h2
      exact h2.2
    subst hmet0
    by_cases hf : files.isEmpty
    · have hfe : files = [] := List.isEmpty_iff.mp hf
      subst hfe
      by_cases hu : (title.isSome || description.isSome || lesson_name.isSome ||
          lesson_type.isSome || specialty.isSome || course.isSome ||
          deadline.isSome) = true
      · refine
          ⟨{ task with
             title := patchVal task.title title,
             description := patchVal task.description description,
             lesson_name := patchVal task.lesson_name lesson_name,
             lesson_type := patchVal task.lesson_type lesson_type,
             specialty := patchVal task.specialty specialty,
             course := patchVal task.course course,
             deadline := patchDeadline task.deadline deadline },
            [], ?_, hmet, rfl, rfl, rfl, rfl, rfl, rfl, rfl, rfl, rfl, ?_, ?_⟩
        · simp only [update_task, hfind, hauth2, if_false, hconf, Bool.false_eq_true,
            List.isEmpty_nil, if_true, Bool.not_true, Bool.or_false, hu]
        · simp [task_upload_files]
        · simp
      · have h1 : title = none := by
          rcases title with _ | v
          · rfl
          · simp at hu
        have h2 : description = none := by
          rcases description with _ | v
          · rfl
          · simp at hu
        have h3 : lesson_name = none := by
          rcases lesson_name with _ | v
          · rfl
          · simp at hu
        have h4 : lesson_type = none := by
          rcases lesson_type with _ | v
          · rfl
          · simp at hu
        have h5 : specialty = none := by
          rcases specialty with _ | v
          · rfl
          · simp at hu
        have h6 : course = none := by
          rcases course with _ | v
          · rfl
          · simp at hu
        have h7 : deadline = none := by
          rcases deadline with _ | v
          · rfl
          · simp at hu
        subst h1; subst h2; subst h3; subst h4; subst h5; subst h6; subst h7
        refine ⟨task, [], ?_, hmet, rfl, rfl, rfl, rfl, rfl, rfl, rfl, rfl, rfl, ?_, ?_⟩
        · simp only [update_task, hfind, hauth2, if_false, hconf, Bool.false_eq_true,
            List.isEmpty_nil, if_true]
          simp
        · simp [task_upload_files]
        · simp
    · refine
        ⟨{ task with
           title := patchVal task.title title,
           description := patchVal task.description description,
           lesson_name := patchVal task.lesson_name lesson_name,
           lesson_type := patchVal task.lesson_type lesson_type,
           specialty := patchVal task.specialty specialty,
           course := patchVal task.course course,
           deadline := patchDeadline task.deadline deadline,
           files_metadata :=
             task.files_metadata ++ (task_upload_files cfg task.id "files" genF 0 files).2 },
          [], ?_, hmet, rfl, rfl, rfl, rfl, rfl, rfl, rfl, rfl, rfl, rfl, ?_⟩
      · simp only [update_task, hfind, hauth2, if_false, hconf, Bool.false_eq_true,
          List.isEmpty_nil, if_true, hf]
        simp [hf]
      · simp
  · by_cases hf : files.isEmpty
    · have hfe : files = [] := List.isEmpty_iff.mp hf
      subst hfe
      refine
        ⟨{ task with
           title := patchVal task.title title,
           description := patchVal task.description description,
           lesson_name := patchVal task.lesson_name lesson_name,
           lesson_type := patchVal task.lesson_type lesson_type,
           specialty := patchVal task.specialty specialty,
           course := patchVal task.course course,
           deadline := patchDeadline task.deadline deadline,
           photos_metadata := task.photos_metadata ++ metas },
          metas, ?_, hmet, rfl, rfl, rfl, rfl, rfl, rfl, rfl, rfl, rfl, ?_, rfl⟩
      · simp only [update_task, hfind, hauth2, if_false, hconf, Bool.false_eq_true,
          List.isEmpty_nil, if_true, hp, hmet]
        simp [hp]
      · simp [task_upload_files]
    · refine
        ⟨{ task with
           title := patchVal task.title title,
           description := patchVal task.description description,
           lesson_name := patchVal task.lesson_name lesson_name,
           lesson_type := patchVal task.lesson_type lesson_type,
           specialty := patchVal task.specialty specialty,
           course := patchVal task.course course,
           deadline := patchDeadline task.deadline deadline,
           files_metadata :=
             task.files_metadata ++ (task_upload_files cfg task.id "files" genF 0 files).2,
           photos_metadata := task.photos_metadata ++ metas },
          metas, ?_, hmet, rfl, rfl, rfl, rfl, rfl, rfl, rfl, rfl, rfl, rfl, rfl⟩
      simp only [update_task, hfind, hauth2, if_false, hconf, Bool.false_eq_true,
        hf, hp, hmet]
      simp [hp, hf]

theorem C8_update_patch_and_append_witness :
    (stTaskW.tasks.find? (fun t => t.id == 9) = some taskW ∧
      (taskW.checker = teacherW.id ∨ teacherW.role = UserRole.admin) ∧
      update_title_conflict stTaskW.tasks taskW (some "Y") = false ∧
      (∀ p ∈ [photoW], allowed_types.contains p.content_type = true)) ∧
    ∃ (t' : Task) (newPhotos : List FileMeta),
      (update_task cfgW stTaskW 9 teacherW (some "Y") none none none none none none
          [fileW] [photoW] genW genW).2 = Except.ok t' ∧
      task_upload_photos cfgW taskW.id genW 0 [photoW]
        = (photo_obj_names taskW.id genW 0 [photoW], Except.ok newPhotos) ∧
      t'.title = patchVal taskW.title (some "Y") ∧
      t'.description = patchVal taskW.description none ∧
      t'.lesson_name = patchVal taskW.lesson_name none ∧
      t'.lesson_type = patchVal taskW.lesson_type none ∧
      t'.specialty = patchVal taskW.specialty none ∧
      t'.course = patchVal taskW.course none ∧
      t'.deadline = patchDeadline taskW.deadline none ∧
      t'.id = taskW.id ∧ t'.checker = taskW.checker ∧
      t'.files_metadata
        = taskW.files_metadata ++ (task_upload_files cfgW taskW.id "files" genW 0 [fileW]).2 ∧
      t'.photos_metadata = taskW.photos_metadata ++ newPhotos :=
  ⟨⟨by decide, by decide, by decide, by decide⟩,
    C8_update_patch_and_append cfgW stTaskW 9 teacherW (some "Y") none none none none
      none none [fileW] [photoW] genW genW taskW (by decide) (by decide) (by decide)
      (by decide)⟩

/-! ## Lemmas: the delete_task_file scan loop -/

theorem scan_files_no_match (n : String) :
    ∀ (l : List FileMeta) (acc : Option FileMeta × List FileMeta),
      (∀ m ∈ l, m.name ≠ some n) → scan_files n acc l = (acc.1, acc.2 ++ l) := by
  intro l
  induction l with
  | nil => intro acc _; simp [scan_files]
  | cons m rest ih =>
    intro acc h
    have hm : m.name ≠ some n := h m (by simp)
    simp only [scan_files, if_neg hm]
    rw [ih _ (fun q hq => h q (by simp [hq]))]
    simp

theorem scan_files_snd (n : String) :
    ∀ (l : List FileMeta) (acc : Option FileMeta × List FileMeta),
      (scan_files n acc l).2 = acc.2 ++ l.filter (fun m => !decide (m.name = some n)) := by
  intro l
  induction l with
  | nil => intro acc; simp [scan_files]
  | cons m rest ih =>
    intro acc
    by_cases hm : m.name = some n
    · simp only [scan_files, if_pos hm]
      rw [ih]
      simp [hm]
    · simp only [scan_files, if_neg hm]
      rw [ih]
      simp [hm]

theorem scan_files_fst (n : String) :
    ∀ (l : List FileMeta) (a : Option FileMeta) (acc2 : List FileMeta),
      (scan_files n (a, acc2) l).1 = orElseOpt (lastMatch n l) a := by
  intro l
  induction l with
  | nil => intro a acc2; simp [scan_files, lastMatch, orElseOpt]
  | cons m rest ih =>
    intro a acc2
    by_cases hm : m.name = some n
    · simp only [scan_files, if_pos hm]
      rw [ih]
      rcases hlm : lastMatch n rest with _ | m'
      · have hfe : rest.filter (fun m => decide (m.name = some n)) = [] := by
          have := hlm
          unfold lastMatch at this
          exact List.getLast?_eq_none_iff.mp this
        unfold lastMatch orElseOpt
        simp [List.filter_cons, hm, hfe]
      · unfold lastMatch at hlm ⊢
        rcases hfc : rest.filter (fun m => decide (m.name = some n)) with _ | ⟨x, xs⟩
        · rw [hfc] at hlm
          simp at hlm
        · rw [hfc] at hlm
          simp only [List.filter_cons, hm, decide_True, if_true, hfc,
            List.getLast?_cons_cons, hlm, orElseOpt]
    · simp only [scan_files, if_neg hm]
      rw [ih]
      unfold lastMatch
      simp [List.filter_cons, hm]

/-- C6: deleting a file name that no entry of the task's files_metadata
carries fails with 404 and leaves the whole state (task row, store, deletion
trace) unchanged. -/
theorem C6_delete_absent_file_notfound (st : TaskState) (task_id : Nat) (n : String)
    (u : User) (task : Task)
    (hfind : st.tasks.find? (fun t => t.id == task_id) = some task)
    (hauth : task.checker = u.id ∨ u.role = UserRole.admin)
    (hnone : ∀ m ∈ task.files_metadata, m.name ≠ some n) :
    ∃ err : HTTPError,
      delete_task_file st task_id n u = (st, Except.error err) ∧ err.status_code = 404 := by
  have hauth2 : ¬(task.checker ≠ u.id ∧ u.role ≠ UserRole.admin) := by
    rcases hauth with h | h
    · exact fun hc => hc.1 h
    · exact fun hc => hc.2 h
  by_cases he : task.files_metadata.isEmpty
  · exact ⟨{ status_code := 404, detail := "No files found in this task" },
      by simp only [delete_task_file, hfind, hauth2, if_false, he, if_true], rfl⟩
  · refine ⟨{ status_code := 404, detail := "File '" ++ n ++ "' not found in task" },
      ?_, rfl⟩
    simp only [delete_task_file, hfind, hauth2, if_false, he, Bool.false_eq_true,
      if_false]
    rw [scan_files_no_match n task.files_metadata (none, []) hnone]

theorem C6_delete_absent_file_notfound_witness :
    (stDupW.tasks.find? (fun t => t.id == 5) = some taskDupW ∧
      (taskDupW.checker = teacherW.id ∨ teacherW.role = UserRole.admin) ∧
      (∀ m ∈ taskDupW.files_metadata, m.name ≠ some "zzz")) ∧
    ∃ err : HTTPError,
      delete_task_file stDupW 5 "zzz" teacherW = (stDupW, Except.error err) ∧
      err.status_code = 404 :=
  ⟨⟨by decide, by decide, by decide⟩,
    C6_delete_absent_file_notfound stDupW 5 "zzz" teacherW taskDupW (by decide)
      (by decide) (by decide)⟩

/-- C4 (counterexample to the claim as stated): on a task whose files are
named a, b, a, deleting "a" removes BOTH entries named "a" (not exactly the
first), and the blob deleted is that of the LAST matching entry (u3), not
the first (u1). -/
theorem C4_delete_by_name_counterexample :
    (delete_task_file stDupW 5 "a" teacherW).2
      = Except.ok
          { taskDupW with
            files_metadata :=
              [{ name := some "b", url := upload_file_url cfgW "tasks/5/files/u2.x" }] } ∧
    (delete_task_file stDupW 5 "a" teacherW).1.deletedObjects
      = ["tasks/5/files/u3.x"] ∧
    ("tasks/5/files/u3.x" : String) ≠ "tasks/5/files/u1.x" :=
  ⟨rfl, rfl, by decide⟩

/-- C4 (amended): when at least one entry matches the name, delete_task_file
deletes the blob of the LAST matching entry and persists the list with ALL
entries of that name removed (order of the kept entries preserved). -/
theorem C4_delete_by_name_last_blob_all_removed (st : TaskState) (task_id : Nat)
    (n : String) (u : User) (task : Task) (mlast : FileMeta)
    (hfind : st.tasks.find? (fun t => t.id == task_id) = some task)
    (hauth : task.checker = u.id ∨ u.role = UserRole.admin)
    (hlast : lastMatch n task.files_metadata = some mlast)
    (hurl : mlast.url ≠ "") :
    ∃ t2 : Task,
      delete_task_file st task_id n u
        = ({ st with
              tasks := replaceTask st.tasks task_id t2,
              store := st.store.filter (fun o => o ≠ objectNameFromUrl mlast.url),
              deletedObjects := st.deletedObjects ++ [objectNameFromUrl mlast.url] },
            Except.ok t2) ∧
      t2.files_metadata
        = task.files_metadata.filter (fun m => !decide (m.name = some n)) := by
  have hauth2 : ¬(task.checker ≠ u.id ∧ u.role ≠ UserRole.admin) := by
    rcases hauth with h | h
    · exact fun hc => hc.1 h
    · exact fun hc => hc.2 h
  have hne : task.files_metadata.isEmpty = false := by
    rcases hfe : task.files_metadata with _ | ⟨m0, ms⟩
    · rw [hfe] at hlast
      simp [lastMatch] at hlast
    · rfl
  have hpair : scan_files n (none, []) task.files_metadata
      = (some mlast, task.files_metadata.filter (fun m => !decide (m.name = some n))) := by
    have h1 := scan_files_fst n task.files_metadata none []
    rw [hlast] at h1
    have h2 := scan_files_snd n task.files_metadata (none, [])
    rcases hsc : scan_files n (none, []) task.files_metadata with ⟨f, s⟩
    rw [hsc] at h1 h2
    simp only [orElseOpt] at h1
    simp only [List.nil_append] at h2
    rw [h1, h2]
  refine ⟨{ task with
            files_metadata :=
              task.files_metadata.filter (fun m => !decide (m.name = some n)) },
    ?_, rfl⟩
  simp only [delete_task_file, hfind, hauth2, if_false, hne, Bool.false_eq_true,
    if_false, hpair, task_delete_file_from_minio, hurl, if_true]
  simp [hurl]

theorem C4_delete_by_name_last_blob_all_removed_witness :
    (stDupW.tasks.find? (fun t => t.id == 5) = some taskDupW ∧
      (taskDupW.checker = teacherW.id ∨ teacherW.role = UserRole.admin) ∧
      lastMatch "a" taskDupW.files_metadata
        = some { name := some "a", url := upload_file_url cfgW "tasks/5/files/u3.x" } ∧
      upload_file_url cfgW "tasks/5/files/u3.x" ≠ "") ∧
    ∃ t2 : Task,
      delete_task_file stDupW 5 "a" teacherW
        = ({ stDupW with
              tasks := replaceTask stDupW.tasks 5 t2,
              store := stDupW.store.filter
                (fun o => o ≠ objectNameFromUrl (upload_file_url cfgW "tasks/5/files/u3.x")),
              deletedObjects := stDupW.deletedObjects
                ++ [objectNameFromUrl (upload_file_url cfgW "tasks/5/files/u3.x")] },
            Except.ok t2) ∧
      t2.files_metadata
        = taskDupW.files_metadata.filter (fun m => !decide (m.name = some "a")) :=
  ⟨⟨by decide, by decide, by decide, by decide⟩,
    C4_delete_by_name_last_blob_all_removed stDupW 5 "a" teacherW taskDupW
      { name := some "a", url := upload_file_url cfgW "tasks/5/files/u3.x" }
      (by decide) (by decide) (by decide) (by decide)⟩

/-- C2 (counterexample to the claim as stated): on a GRADED answer, an actor
who is neither the owning student nor ADMIN gets 403 Forbidden from
update/delete, not a Bad-Request/ValidationFailed-class (400) error. -/
theorem C2_nonsubmitted_guard_counterexample :
    ansGradedW.answers.map (fun a => a.status) = [AnswerStatus.GRADED] ∧
    (update_answer cfgW ansGradedW 0 otherW (some "m") [] [] genW genW)
      = (ansGradedW,
          Except.error
            { status_code := 403,
              detail := "You don't have permission to update this answer" }) ∧
    (delete_answer ansGradedW 0 otherW)
      = (ansGradedW,
          Except.error
            { status_code := 403,
              detail := "You don't have permission to delete this answer" }) ∧
    (403 : Nat) ≠ 400 :=
  ⟨rfl, rfl, rfl, by decide⟩

/-- C2 (amended): for an answer whose status is not SUBMITTED, update and
delete fail with 400 for the owning student and for ADMIN, and with 403 for
every other actor, in all cases leaving the state unchanged; an answer with
status SUBMITTED can be updated and deleted by its owning student. -/
theorem C2_answer_modification_guards (cfg : MinioConfig) (st : AnswerState)
    (answer_id : Nat) (u : User) (message : Option String)
    (files photos : List UploadFile) (genF genP : Nat → String) (answer : Answer)
    (hfind : st.answers.find? (fun a => a.id == answer_id) = some answer) :
    ((answer.student_id = u.id ∨ u.role = UserRole.admin) →
      answer.status ≠ AnswerStatus.SUBMITTED →
      update_answer cfg st answer_id u message files photos genF genP
        = (st, Except.error
            { status_code := 400,
              detail := "Cannot update answer that has been graded or returned" }) ∧
      delete_answer st answer_id u
        = (st, Except.error
            { status_code := 400, detail := "Cannot delete answer that has been graded" })) ∧
    ((answer.student_id ≠ u.id ∧ u.role ≠ UserRole.admin) →
      update_answer cfg st answer_id u message files photos genF genP
        = (st, Except.error
            { status_code := 403,
              detail := "You don't have permission to update this answer" }) ∧
      delete_answer st answer_id u
        = (st, Except.error
            { status_code := 403,
              detail := "You don't have permission to delete this answer" })) ∧
    (answer.student_id = u.id → answer.status = AnswerStatus.SUBMITTED →
      (∀ msg : String, ∃ a' : Answer,
        (update_answer cfg st answer_id u (some msg) [] [] genF genP).2 = Except.ok a' ∧
        a'.message = msg) ∧
      (delete_answer st answer_id u).2 = Except.ok ()) := by
  refine ⟨?_, ?_, ?_⟩
  · intro hown hst
    have hperm : ¬(answer.student_id ≠ u.id ∧ u.role ≠ UserRole.admin) := by
      rcases hown with h | h
      · exact fun hc => hc.1 h
      · exact fun hc => hc.2 h
    constructor
    · simp only [update_answer, hfind, hperm, if_false]
      rw [if_pos hst]
    · simp only [delete_answer, hfind, hperm, if_false]
      rw [if_pos hst]
  · intro hother
    constructor
    · simp only [update_answer, hfind]
      rw [if_pos hother]
    · simp only [delete_answer, hfind]
      rw [if_pos hother]
  · intro hown hst
    have hperm : ¬(answer.student_id ≠ u.id ∧ u.role ≠ UserRole.admin) := fun hc => hc.1 hown
    have hst2 : ¬(answer.status ≠ AnswerStatus.SUBMITTED) := fun hc => hc hst
    constructor
    · intro msg
      refine ⟨{ answer with message := msg }, ?_, rfl⟩
      simp only [update_answer, hfind, hperm, if_false]
      rw [if_neg hst2]
      simp only [List.isEmpty_nil, if_true, Option.isSome_some, Bool.true_or]
      simp [patchVal]
    · simp only [delete_answer, hfind, hperm, if_false]
      rw [if_neg hst2]

theorem C2_answer_modification_guards_witness :
    (ansGradedW.answers.find? (fun a => a.id == 0)
        = some { id := 0, task_id := 9, student_id := 3, message := "done",
                 status := AnswerStatus.GRADED, grade := some 85, teacher_comment := none,
                 graded_at := some 100, files_metadata := [], photos_metadata := [] } ∧
      ((3 : Nat) = studentW.id ∨ studentW.role = UserRole.admin) ∧
      AnswerStatus.GRADED ≠ AnswerStatus.SUBMITTED) ∧
    (update_answer cfgW ansGradedW 0 studentW (some "m") [] [] genW genW
      = (ansGradedW, Except.error
          { status_code := 400,
            detail := "Cannot update answer that has been graded or returned" }) ∧
    delete_answer ansGradedW 0 studentW
      = (ansGradedW, Except.error
          { status_code := 400, detail := "Cannot delete answer that has been graded" })) :=
  ⟨⟨by decide, by decide, by decide⟩,
    (C2_answer_modification_guards cfgW ansGradedW 0 studentW (some "m") [] [] genW genW
        { id := 0, task_id := 9, student_id := 3, message := "done",
          status := AnswerStatus.GRADED, grade := some 85, teacher_comment := none,
          graded_at := some 100, files_metadata := [], photos_metadata := [] }
        (by decide)).1 (by decide) (by decide)⟩

/-! ## Lemmas: answers-table invariant -/

theorem answerInvL_replace (l : List Answer) (n i : Nat) (a2 : Answer)
    (h : AnswerInvL l n) (h2 : a2.id = i)
    (hp : ∀ x ∈ l, x.id = i → pairKey a2 = pairKey x) :
    AnswerInvL (replaceAnswer l i a2) n := by
  obtain ⟨hids, hbound, hpairs⟩ := h
  have hproj : ∀ x : Answer, (if x.id = i then a2 else x).id = x.id := by
    intro x
    by_cases hx : x.id = i
    · simp [hx, h2]
    · simp [hx]
  refine ⟨?_, ?_, ?_⟩
  · unfold DistinctIds at hids ⊢
    unfold replaceAnswer
    rw [List.pairwise_map]
    exact hids.imp (fun hab => by rw [hproj, hproj]; exact hab)
  · intro x hx
    unfold replaceAnswer at hx
    rcases List.mem_map.mp hx with ⟨u, hu, hxu⟩
    have := hbound u hu
    rw [← hxu, hproj]
    exact this
  · have hprojp : ∀ x ∈ l, pairKey (if x.id = i then a2 else x) = pairKey x := by
      intro x hx
      by_cases h1 : x.id = i
      · simp [h1, hp x hx h1]
      · simp [h1]
    unfold DistinctPairs at hpairs ⊢
    unfold replaceAnswer
    rw [List.pairwise_map]
    refine List.Pairwise.imp_of_mem ?_ hpairs
    intro a b ha hb hab
    rw [hprojp a ha, hprojp b hb]
    exact hab

theorem answerInvL_append (l : List Answer) (n : Nat) (a : Answer)
    (h : AnswerInvL l n) (ha : a.id = n)
    (hpair : ∀ x ∈ l, pairKey x ≠ pairKey a) :
    AnswerInvL (l ++ [a]) (n + 1) := by
  obtain ⟨hids, hbound, hpairs⟩ := h
  refine ⟨?_, ?_, ?_⟩
  · unfold DistinctIds
    rw [List.pairwise_append]
    refine ⟨hids, List.pairwise_singleton _ _, ?_⟩
    intro x hx y hy
    simp only [List.mem_singleton] at hy
    subst hy
    have := hbound x hx
    omega
  · intro x hx
    rcases List.mem_append.mp hx with h | h
    · have := hbound x h
      omega
    · simp only [List.mem_singleton] at h
      subst h
      omega
  · unfold DistinctPairs
    rw [List.pairwise_append]
    refine ⟨hpairs, List.pairwise_singleton _ _, ?_⟩
    intro x hx y hy
    simp only [List.mem_singleton] at hy
    subst hy
    exact hpair x hx

theorem answerInvL_filter (l : List Answer) (n : Nat) (p : Answer → Bool)
    (h : AnswerInvL l n) : AnswerInvL (l.filter p) n := by
  obtain ⟨hids, hbound, hpairs⟩ := h
  exact ⟨hids.filter p, fun a ha => hbound a (List.mem_of_mem_filter ha),
    hpairs.filter p⟩

theorem mem_id_eq_of_distinctIds (l : List Answer) (hids : DistinctIds l) :
    ∀ a ∈ l, ∀ b ∈ l, a.id = b.id → a = b := by
  unfold DistinctIds at hids
  induction l with
  | nil => intro a ha; exact absurd ha (List.not_mem_nil a)
  | cons x t ih =>
    rcases List.pairwise_cons.mp hids with ⟨hx, ht⟩
    intro a ha b hb heq
    rcases List.mem_cons.mp ha with ha' | ha' <;> rcases List.mem_cons.mp hb with hb' | hb'
    · rw [ha', hb']
    · subst ha'
      exact absurd heq (hx b hb')
    · subst hb'
      exact absurd heq.symm (hx a ha')
    · exact ih ht a ha' b hb' heq

theorem create_answer_preserves_inv (cfg : MinioConfig) (st : AnswerState)
    (task_id : Nat) (message : String) (u : User) (files photos : List UploadFile)
    (genF genP : Nat → String) (h : AnswerInv st) :
    AnswerInv (create_answer cfg st task_id message u files photos genF genP).1 := by
  unfold AnswerInv at h ⊢
  unfold create_answer
  rcases htask : st.tasks.find? (fun t => t.id == task_id) with _ | t
  · simpa [htask] using h
  rcases hex : st.answers.find?
      (fun a => a.task_id == task_id && a.student_id == u.id) with _ | a0
  swap
  · simpa [htask, hex] using h
  have hpairfresh : ∀ x ∈ st.answers,
      pairKey x ≠ pairKey (new_answer st.nextAnswerId task_id u.id message) := by
    intro x hx hcontra
    have hpred := List.find?_eq_none.mp hex x hx
    have h1 : x.task_id = task_id := congrArg Prod.fst hcontra
    have h2 : x.student_id = u.id := congrArg Prod.snd hcontra
    simp [h1, h2] at hpred
  have hbase : AnswerInvL
      (st.answers ++ [new_answer st.nextAnswerId task_id u.id message])
      (st.nextAnswerId + 1) :=
    answerInvL_append st.answers st.nextAnswerId _ h rfl hpairfresh
  have hmemid : ∀ x ∈ st.answers ++ [new_answer st.nextAnswerId task_id u.id message],
      x.id = st.nextAnswerId →
      pairKey x = pairKey (new_answer st.nextAnswerId task_id u.id message) := by
    intro x hx hxid
    rcases List.mem_append.mp hx with hmem | hmem
    · have := h.2.1 x hmem
      omega
    · simp only [List.mem_singleton] at hmem
      subst hmem
      rfl
  simp only [htask, hex]
  by_cases hf : files = []
  · subst hf
    by_cases hp : photos = []
    · subst hp
      simpa using hbase
    · rcases hup : answer_upload_photos cfg
          (new_answer st.nextAnswerId task_id u.id message).id genP 0 photos with ⟨ups, res⟩
      rcases res with e | metas
      · simpa [hp, hup] using hbase
      · simp only [List.isEmpty_nil, if_true, hp, hup]
        simp only [List.isEmpty_eq_true, hp, if_false]
        refine answerInvL_replace _ _ _ _ hbase rfl ?_
        intro x hx hxid
        exact (hmemid x hx hxid).symm
  · have hstep1 : AnswerInvL
        (replaceAnswer
          (st.answers ++ [new_answer st.nextAnswerId task_id u.id message])
          st.nextAnswerId
          { new_answer st.nextAnswerId task_id u.id message with
            files_metadata := (answer_upload_files cfg st.nextAnswerId genF 0 files).2 })
        (st.nextAnswerId + 1) := by
      refine answerInvL_replace _ _ _ _ hbase rfl ?_
      intro x hx hxid
      exact (hmemid x hx hxid).symm
    have hmemid2 : ∀ x ∈ replaceAnswer
        (st.answers ++ [new_answer st.nextAnswerId task_id u.id message])
        st.nextAnswerId
        { new_answer st.nextAnswerId task_id u.id message with
          files_metadata := (answer_upload_files cfg st.nextAnswerId genF 0 files).2 },
        x.id = st.nextAnswerId →
        pairKey x = pairKey (new_answer st.nextAnswerId task_id u.id message) := by
      intro x hx hxid
      rcases List.mem_map.mp hx with ⟨w, hw, hwx⟩
      by_cases hwi : w.id = st.nextAnswerId
      · rw [← hwx]
        simp only [hwi, if_true]
        rfl
      · rw [← hwx] at hxid
        simp only [hwi, if_false] at hxid
    by_cases hp : photos = []
    · subst hp
      simpa [hf] using hstep1
    · rcases hup : answer_upload_photos cfg
          (new_answer st.nextAnswerId task_id u.id message).id genP 0 photos with ⟨ups, res⟩
      rcases res with e | metas
      · simpa [hf, hp, hup] using hstep1
      · simp only [List.isEmpty_eq_true, hf, hp, if_false, hup]
        refine answerInvL_replace _ _ _ _ hstep1 rfl ?_
        intro x hx hxid
        exact (hmemid2 x hx hxid).symm

theorem update_answer_preserves_inv (cfg : MinioConfig) (st : AnswerState)
    (answer_id : Nat) (u : User) (message : Option String)
    (files photos : List UploadFile) (genF genP : Nat → String) (h : AnswerInv st) :
    AnswerInv (update_answer cfg st answer_id u message files photos genF genP).1 := by
  unfold AnswerInv at h ⊢
  unfold update_answer
  rcases hfind : st.answers.find? (fun a => a.id == answer_id) with _ | answer
  · simpa [hfind] using h
  have hidm : answer.id = answer_id := by
    have := List.find?_some hfind
    simpa using this
  have hmem : answer ∈ st.answers := List.mem_of_find?_eq_some hfind
  have hrep : ∀ A : Answer, A.id = answer_id →
      A.task_id = answer.task_id → A.student_id = answer.student_id →
      AnswerInvL (replaceAnswer st.answers answer_id A) st.nextAnswerId := by
    intro A hA htid hsid
    refine answerInvL_replace _ _ _ _ h hA ?_
    intro x hx hxid
    have hxa : x = answer :=
      mem_id_eq_of_distinctIds st.answers h.1 x hx answer hmem (by rw [hxid, hidm])
    rw [hxa]
    unfold pairKey
    rw [htid, hsid]
  simp only [hfind]
  by_cases hperm : answer.student_id ≠ u.id ∧ u.role ≠ UserRole.admin
  · rw [if_pos hperm]
    simpa using h
  rw [if_neg hperm]
  by_cases hst : answer.status ≠ AnswerStatus.SUBMITTED
  · rw [if_pos hst]
    simpa using h
  rw [if_neg hst]
  by_cases hf : files = []
  · subst hf
    by_cases hp : photos = []
    · subst hp
      by_cases hmsg : message.isSome
      · simp only [List.isEmpty_nil, if_true, hmsg, Bool.true_or, Bool.not_true,
          Bool.or_false]
        exact hrep _ hidm rfl rfl
      · simp only [Bool.not_eq_true] at hmsg
        simp [hmsg]
        exact h
    · have hpe : photos.isEmpty = false := by
        rcases photos with _ | ⟨q, qs⟩
        · exact absurd rfl hp
        · rfl
      rcases hup : answer_upload_photos cfg answer.id genP 0 photos with ⟨ups, res⟩
      rcases res with e | metas
      · simpa [hp, hup] using h
      · simp only [List.isEmpty_nil, if_true, hpe, Bool.false_eq_true, if_false, hup,
          Bool.not_false, Bool.or_true, if_true]
        exact hrep _ hidm rfl rfl
  · have hfe : files.isEmpty = false := by
      rcases files with _ | ⟨q, qs⟩
      · exact absurd rfl hf
      · rfl
    by_cases hp : photos = []
    · subst hp
      simp only [hfe, Bool.false_eq_true, if_false, List.isEmpty_nil, if_true,
        Bool.not_false, Bool.or_true, Bool.true_or]
      exact hrep _ hidm rfl rfl
    · have hpe : photos.isEmpty = false := by
        rcases photos with _ | ⟨q, qs⟩
        · exact absurd rfl hp
        · rfl
      rcases hup : answer_upload_photos cfg answer.id genP 0 photos with ⟨ups, res⟩
      rcases res with e | metas
      · simpa [hf, hp, hup] using h
      · simp only [hfe, hpe, Bool.false_eq_true, if_false, hup, Bool.not_false,
          Bool.or_true, Bool.true_or, if_true]
        exact hrep _ hidm rfl rfl

theorem grade_answer_preserves_inv (st : AnswerState) (answer_id : Nat)
    (g : AnswerGrade) (u : User) (now : Nat) (h : AnswerInv st) :
    AnswerInv (grade_answer st answer_id g u now).1 := by
  unfold AnswerInv at h ⊢
  unfold grade_answer
  rcases hfind : st.answers.find? (fun a => a.id == answer_id) with _ | answer
  · simpa [hfind] using h
  have hidm : answer.id = answer_id := by
    have := List.find?_some hfind
    simpa using this
  have hmem : answer ∈ st.answers := List.mem_of_find?_eq_some hfind
  simp only [hfind]
  rcases htask : st.tasks.find? (fun t => t.id == answer.task_id) with _ | t
  · simpa [htask] using h
  simp only [htask]
  by_cases hperm : t.checker ≠ u.id ∧ u.role ≠ UserRole.admin
  · rw [if_pos hperm]
    simpa using h
  rw [if_neg hperm]
  refine answerInvL_replace _ _ _ _ h hidm ?_
  intro x hx hxid
  have hxa : x = answer :=
    mem_id_eq_of_distinctIds st.answers h.1 x hx answer hmem (by rw [hxid, hidm])
  rw [hxa]
  rfl

theorem answer_delete_files_go_frame (st : AnswerState) (L : List FileMeta) :
    (answer_delete_files_go st L).answers = st.answers ∧
    (answer_delete_files_go st L).nextAnswerId = st.nextAnswerId ∧
    (answer_delete_files_go st L).tasks = st.tasks := by
  induction L generalizing st with
  | nil => exact ⟨rfl, rfl, rfl⟩
  | cons m rest ih =>
    have hone : (answer_delete_one st m).answers = st.answers ∧
        (answer_delete_one st m).nextAnswerId = st.nextAnswerId ∧
        (answer_delete_one st m).tasks = st.tasks := by
      unfold answer_delete_one
      split <;> exact ⟨rfl, rfl, rfl⟩
    have := ih (answer_delete_one st m)
    unfold answer_delete_files_go
    exact ⟨this.1.trans hone.1, (this.2.1).trans hone.2.1, (this.2.2).trans hone.2.2⟩

theorem delete_answer_preserves_inv (st : AnswerState) (answer_id : Nat) (u : User)
    (h : AnswerInv st) : AnswerInv (delete_answer st answer_id u).1 := by
  unfold AnswerInv at h ⊢
  unfold delete_answer
  rcases hfind : st.answers.find? (fun a => a.id == answer_id) with _ | answer
  · simpa [hfind] using h
  simp only [hfind]
  by_cases hperm : answer.student_id ≠ u.id ∧ u.role ≠ UserRole.admin
  · rw [if_pos hperm]
    simpa using h
  rw [if_neg hperm]
  by_cases hst : answer.status ≠ AnswerStatus.SUBMITTED
  · rw [if_pos hst]
    simpa using h
  rw [if_neg hst]
  have hframe := answer_delete_files_go_frame st
    (answer.files_metadata ++ answer.photos_metadata)
  simp only [answer_delete_files]
  rw [hframe.1, hframe.2.1]
  exact answerInvL_filter _ _ _ h

theorem reach_inv (cfg : MinioConfig) (st : AnswerState) (h : Reach cfg st) :
    AnswerInv st := by
  induction h with
  | init tasks n =>
    exact ⟨List.Pairwise.nil, fun a ha => absurd ha (List.not_mem_nil a),
      List.Pairwise.nil⟩
  | step st st' _ hstep ih =>
    cases hstep with
    | create task_id message u files photos genF genP =>
      exact create_answer_preserves_inv cfg st task_id message u files photos genF genP ih
    | update answer_id u message files photos genF genP =>
      exact update_answer_preserves_inv cfg st answer_id u message files photos genF genP ih
    | grade answer_id g u now =>
      exact grade_answer_preserves_inv st answer_id g u now ih
    | delete answer_id u =>
      exact delete_answer_preserves_inv st answer_id u ih

/-- C1 (counterexample to the claim as stated): the duplicate-submission
rejection is raised as HTTP 400 Bad Request, not 409 Conflict. -/
theorem C1_duplicate_answer_counterexample :
    (create_answer cfgW ansSubmittedW 9 "again" studentW [] [] genW genW)
      = (ansSubmittedW,
          Except.error
            { status_code := 400,
              detail := "You have already submitted an answer for this task" }) ∧
    (400 : Nat) ≠ 409 :=
  ⟨rfl, by decide⟩

/-- C1 (amended): for an existing task, a second createAnswer for the same
(task, student) pair rejects with HTTP 400 ("You have already submitted an
answer for this task"), inserting nothing and leaving the state unchanged;
consequently every state reachable by sequential operations has at most one
Answer per (task, student) pair. -/
theorem C1_one_answer_per_task_student :
    (∀ (cfg : MinioConfig) (st : AnswerState) (task_id : Nat) (message : String)
        (u : User) (files photos : List UploadFile) (genF genP : Nat → String)
        (t : Task) (a : Answer),
      st.tasks.find? (fun x => x.id == task_id) = some t →
      st.answers.find? (fun x => x.task_id == task_id && x.student_id == u.id) = some a →
      create_answer cfg st task_id message u files photos genF genP
        = (st, Except.error
            { status_code := 400,
              detail := "You have already submitted an answer for this task" })) ∧
    (∀ (cfg : MinioConfig) (st : AnswerState), Reach cfg st →
      DistinctPairs st.answers) := by
  constructor
  · intro cfg st task_id message u files photos genF genP t a htask hdup
    unfold create_answer
    rw [htask, hdup]
  · intro cfg st h
    exact (reach_inv cfg st h).2.2

theorem C1_one_answer_per_task_student_witness :
    (ansSubmittedW.tasks.find? (fun x => x.id == 9) = some taskW ∧
      ansSubmittedW.answers.find? (fun x => x.task_id == 9 && x.student_id == studentW.id)
        = some { id := 0, task_id := 9, student_id := 3, message := "done",
                 status := AnswerStatus.SUBMITTED, grade := none, teacher_comment := none,
                 graded_at := none, files_metadata := [], photos_metadata := [] }) ∧
    create_answer cfgW ansSubmittedW 9 "again" studentW [] [] genW genW
      = (ansSubmittedW,
          Except.error
            { status_code := 400,
              detail := "You have already submitted an answer for this task" }) ∧
    DistinctPairs ansSubmittedW.answers :=
  ⟨⟨by decide, by decide⟩,
    C1_one_answer_per_task_student.1 cfgW ansSubmittedW 9 "again" studentW [] [] genW genW
      taskW
      { id := 0, task_id := 9, student_id := 3, message := "done",
        status := AnswerStatus.SUBMITTED, grade := none, teacher_comment := none,
        graded_at := none, files_metadata := [], photos_metadata := [] }
      (by decide) (by decide),
    C1_one_answer_per_task_student.2 cfgW ansSubmittedW
      (Reach.step ansInitW ansSubmittedW (Reach.init [taskW] 0)
        (AStep.create ansInitW 9 "done" studentW [] [] genW genW))⟩

theorem no_return_replace (l : List Answer) (i j : Nat) (A : Answer) (hA : A.id = j)
    (hR : ∀ a ∈ l, a.id = i → a.status ≠ AnswerStatus.SUBMITTED)
    (hAs : j = i → A.status ≠ AnswerStatus.SUBMITTED) :
    ∀ a ∈ replaceAnswer l j A, a.id = i → a.status ≠ AnswerStatus.SUBMITTED := by
  intro a ha hai
  rcases List.mem_map.mp ha with ⟨w, hw, hwa⟩
  by_cases hwj : w.id = j
  · rw [← hwa] at hai ⊢
    simp only [hwj, if_true] at hai ⊢
    exact hAs (by rw [← hA, hai])
  · rw [← hwa] at hai ⊢
    simp only [hwj, if_false] at hai ⊢
    exact hR w hw hai

theorem no_return_append (l : List Answer) (i : Nat) (x : Answer) (hx : x.id ≠ i)
    (hR : ∀ a ∈ l, a.id = i → a.status ≠ AnswerStatus.SUBMITTED) :
    ∀ a ∈ l ++ [x], a.id = i → a.status ≠ AnswerStatus.SUBMITTED := by
  intro a ha hai
  rcases List.mem_append.mp ha with h | h
  · exact hR a h hai
  · simp only [List.mem_singleton] at h
    subst h
    exact absurd hai hx

theorem gstep_no_return (cfg : MinioConfig) (st st' : AnswerState)
    (h : GStep cfg st st') (i : Nat) (hid : i < st.nextAnswerId)
    (hR : ∀ a ∈ st.answers, a.id = i → a.status ≠ AnswerStatus.SUBMITTED) :
    i < st'.nextAnswerId ∧
    ∀ a ∈ st'.answers, a.id = i → a.status ≠ AnswerStatus.SUBMITTED := by
  cases h with
  | create task_id message u files photos genF genP =>
    unfold create_answer
    rcases htask : st.tasks.find? (fun t => t.id == task_id) with _ | t
    · simpa [htask] using ⟨hid, hR⟩
    rcases hex : st.answers.find?
        (fun a => a.task_id == task_id && a.student_id == u.id) with _ | a0
    swap
    · simpa [htask, hex] using ⟨hid, hR⟩
    have hne : (new_answer st.nextAnswerId task_id u.id message).id ≠ i := by
      show st.nextAnswerId ≠ i
      omega
    have hbase := no_return_append st.answers i _ hne hR
    have hAs : st.nextAnswerId = i → False := by omega
    have hlt : i < st.nextAnswerId + 1 := by omega
    simp only [htask, hex]
    by_cases hf : files = []
    · subst hf
      by_cases hp : photos = []
      · subst hp
        exact ⟨hlt, hbase⟩
      · have hpe : photos.isEmpty = false := by
          rcases photos with _ | ⟨q, qs⟩
          · exact absurd rfl hp
          · rfl
        rcases hup : answer_upload_photos cfg
            (new_answer st.nextAnswerId task_id u.id message).id genP 0 photos with
          ⟨ups, res⟩
        rcases res with e | metas
        · simp only [List.isEmpty_nil, if_true, hpe, Bool.false_eq_true, if_false, hup]
          exact ⟨hlt, hbase⟩
        · simp only [List.isEmpty_nil, if_true, hpe, Bool.false_eq_true, if_false, hup]
          exact ⟨hlt,
            no_return_replace _ i st.nextAnswerId _ rfl hbase (fun hj => absurd hj hAs)⟩
    · have hfe : files.isEmpty = false := by
        rcases files with _ | ⟨q, qs⟩
        · exact absurd rfl hf
        · rfl
      have hstep1 := no_return_replace
        (st.answers ++ [new_answer st.nextAnswerId task_id u.id message]) i
        st.nextAnswerId
        { new_answer st.nextAnswerId task_id u.id message with
          files_metadata := (answer_upload_files cfg st.nextAnswerId genF 0 files).2 }
        rfl hbase (fun hj => absurd hj hAs)
      by_cases hp : photos = []
      · subst hp
        simp only [hfe, Bool.false_eq_true, if_false, List.isEmpty_nil, if_true]
        exact ⟨hlt, hstep1⟩
      · have hpe : photos.isEmpty = false := by
          rcases photos with _ | ⟨q, qs⟩
          · exact absurd rfl hp
          · rfl
        rcases hup : answer_upload_photos cfg
            (new_answer st.nextAnswerId task_id u.id message).id genP 0 photos with
          ⟨ups, res⟩
        rcases res with e | metas
        · simp only [hfe, hpe, Bool.false_eq_true, if_false, hup]
          exact ⟨hlt, hstep1⟩
        · simp only [hfe, hpe, Bool.false_eq_true, if_false, hup]
          exact ⟨hlt,
            no_return_replace _ i st.nextAnswerId _ rfl hstep1 (fun hj => absurd hj hAs)⟩
  | update answer_id u message files photos genF genP =>
    unfold update_answer
    rcases hfind : st.answers.find? (fun a => a.id == answer_id) with _ | answer
    · simpa [hfind] using ⟨hid, hR⟩
    have hidm : answer.id = answer_id := by
      have := List.find?_some hfind
      simpa using this
    have hmem : answer ∈ st.answers := List.mem_of_find?_eq_some hfind
    simp only [hfind]
    by_cases hperm : answer.student_id ≠ u.id ∧ u.role ≠ UserRole.admin
    · rw [if_pos hperm]
      exact ⟨hid, hR⟩
    rw [if_neg hperm]
    by_cases hst : answer.status ≠ AnswerStatus.SUBMITTED
    · rw [if_pos hst]
      exact ⟨hid, hR⟩
    rw [if_neg hst]
    have hsub : answer.status = AnswerStatus.SUBMITTED := not_not.mp hst
    have hAs : answer_id = i → False := by
      intro hji
      exact hR answer hmem (hidm.trans hji) hsub
    have hrep : ∀ A : Answer, A.id = answer_id → A.status = answer.status →
        ∀ a ∈ replaceAnswer st.answers answer_id A, a.id = i →
          a.status ≠ AnswerStatus.SUBMITTED := by
      intro A hA hAst
      exact no_return_replace st.answers i answer_id A hA hR
        (fun hj => absurd hj hAs)
    by_cases hf : files = []
    · subst hf
      by_cases hp : photos = []
      · subst hp
        by_cases hmsg : message.isSome
        · simp only [List.isEmpty_nil, if_true, hmsg, Bool.true_or]
          exact ⟨hid, hrep _ hidm rfl⟩
        · simp only [Bool.not_eq_true] at hmsg
          simp [hmsg]
          exact ⟨hid, hR⟩
      · have hpe : photos.isEmpty = false := by
          rcases photos with _ | ⟨q, qs⟩
          · exact absurd rfl hp
          · rfl
        rcases hup : answer_upload_photos cfg answer.id genP 0 photos with ⟨ups, res⟩
        rcases res with e | metas
        · simpa [hp, hup] using ⟨hid, hR⟩
        · simp only [List.isEmpty_nil, if_true, hpe, Bool.false_eq_true, if_false, hup,
            Bool.not_false, Bool.or_true]
          exact ⟨hid, hrep _ hidm rfl⟩
    · have hfe : files.isEmpty = false := by
        rcases files with _ | ⟨q, qs⟩
        · exact absurd rfl hf
        · rfl
      by_cases hp : photos = []
      · subst hp
        simp only [hfe, Bool.false_eq_true, if_false, List.isEmpty_nil, if_true,
          Bool.not_false, Bool.or_true, Bool.true_or]
        exact ⟨hid, hrep _ hidm rfl⟩
      · have hpe : photos.isEmpty = false := by
          rcases photos with _ | ⟨q, qs⟩
          · exact absurd rfl hp
          · rfl
        rcases hup : answer_upload_photos cfg answer.id genP 0 photos with ⟨ups, res⟩
        rcases res with e | metas
        · simpa [hf, hp, hup] using ⟨hid, hR⟩
        · simp only [hfe, hpe, Bool.false_eq_true, if_false, hup, Bool.not_false,
            Bool.or_true, Bool.true_or, if_true]
          exact ⟨hid, hrep _ hidm rfl⟩
  | grade answer_id g u now hg =>
    unfold grade_answer
    rcases hfind : st.answers.find? (fun a => a.id == answer_id) with _ | answer
    · simpa [hfind] using ⟨hid, hR⟩
    have hidm : answer.id = answer_id := by
      have := List.find?_some hfind
      simpa using this
    simp only [hfind]
    rcases htask : st.tasks.find? (fun t => t.id == answer.task_id) with _ | t
    · simpa [htask] using ⟨hid, hR⟩
    simp only [htask]
    by_cases hperm : t.checker ≠ u.id ∧ u.role ≠ UserRole.admin
    · rw [if_pos hperm]
      exact ⟨hid, hR⟩
    rw [if_neg hperm]
    exact ⟨hid, no_return_replace st.answers i answer_id _ hidm hR (fun _ => hg)⟩
  | delete answer_id u =>
    unfold delete_answer
    rcases hfind : st.answers.find? (fun a => a.id == answer_id) with _ | answer
    · simpa [hfind] using ⟨hid, hR⟩
    simp only [hfind]
    by_cases hperm : answer.student_id ≠ u.id ∧ u.role ≠ UserRole.admin
    · rw [if_pos hperm]
      exact ⟨hid, hR⟩
    rw [if_neg hperm]
    by_cases hst : answer.status ≠ AnswerStatus.SUBMITTED
    · rw [if_pos hst]
      exact ⟨hid, hR⟩
    rw [if_neg hst]
    have hframe := answer_delete_files_go_frame st
      (answer.files_metadata ++ answer.photos_metadata)
    simp only [answer_delete_files]
    rw [hframe.1, hframe.2.1]
    exact ⟨hid, fun a ha hai => hR a (List.mem_of_mem_filter ha) hai⟩

/-- C3 (counterexample to the claim as stated): grade_answer accepts the
caller-supplied status SUBMITTED, so a reachable sequence
create → grade(GRADED) → grade(SUBMITTED) moves the same answer's status
from GRADED back to SUBMITTED. -/
theorem C3_status_return_counterexample :
    Reach cfgW ansResubmittedW ∧
    ansGradedW.answers.map (fun a => a.status) = [AnswerStatus.GRADED] ∧
    ansResubmittedW.answers.map (fun a => a.status) = [AnswerStatus.SUBMITTED] :=
  ⟨Reach.step ansGradedW ansResubmittedW
      (Reach.step ansSubmittedW ansGradedW
        (Reach.step ansInitW ansSubmittedW (Reach.init [taskW] 0)
          (AStep.create ansInitW 9 "done" studentW [] [] genW genW))
        (AStep.grade ansSubmittedW 0
          { grade := 85, teacher_comment := none, status := AnswerStatus.GRADED }
          teacherW 100))
      (AStep.grade ansGradedW 0
        { grade := 85, teacher_comment := none, status := AnswerStatus.SUBMITTED }
        teacherW 101),
    rfl, rfl⟩

/-- C3 (amended): along any sequence of answer operations in which every
grade call supplies a status other than SUBMITTED, an answer whose status
has left SUBMITTED never has status SUBMITTED again; grade_answer with the
caller-supplied status SUBMITTED is the one exposed transition violating
this for the original claim. -/
theorem C3_no_return_to_submitted_guarded (cfg : MinioConfig) (st st' : AnswerState)
    (hreach : Reach cfg st)
    (hchain : Relation.ReflTransGen (GStep cfg) st st')
    (a : Answer) (ha : a ∈ st.answers) (hstat : a.status ≠ AnswerStatus.SUBMITTED) :
    ∀ a' ∈ st'.answers, a'.id = a.id → a'.status ≠ AnswerStatus.SUBMITTED := by
  have hinv := reach_inv cfg st hreach
  have hid : a.id < st.nextAnswerId := hinv.2.1 a ha
  have hR : ∀ x ∈ st.answers, x.id = a.id → x.status ≠ AnswerStatus.SUBMITTED := by
    intro x hx hxi
    rw [mem_id_eq_of_distinctIds st.answers hinv.1 x hx a ha hxi]
    exact hstat
  have main : a.id < st'.nextAnswerId ∧
      ∀ x ∈ st'.answers, x.id = a.id → x.status ≠ AnswerStatus.SUBMITTED := by
    induction hchain with
    | refl => exact ⟨hid, hR⟩
    | tail h1 hstep ih => exact gstep_no_return cfg _ _ hstep a.id ih.1 ih.2
  exact main.2

theorem C3_no_return_to_submitted_guarded_witness :
    (Reach cfgW ansGradedW ∧
      { id := 0, task_id := 9, student_id := 3, message := "done",
        status := AnswerStatus.GRADED, grade := some 85, teacher_comment := none,
        graded_at := some 100, files_metadata := [],
        photos_metadata := [] } ∈ ansGradedW.answers ∧
      AnswerStatus.GRADED ≠ AnswerStatus.SUBMITTED) ∧
    ∀ a' ∈ ansGradedW.answers, a'.id = 0 → a'.status ≠ AnswerStatus.SUBMITTED :=
  ⟨⟨Reach.step ansSubmittedW ansGradedW
      (Reach.step ansInitW ansSubmittedW (Reach.init [taskW] 0)
        (AStep.create ansInitW 9 "done" studentW [] [] genW genW))
      (AStep.grade ansSubmittedW 0
        { grade := 85, teacher_comment := none, status := AnswerStatus.GRADED }
        teacherW 100),
      by decide, by decide⟩,
    C3_no_return_to_submitted_guarded cfgW ansGradedW ansGradedW
      (Reach.step ansSubmittedW ansGradedW
        (Reach.step ansInitW ansSubmittedW (Reach.init [taskW] 0)
          (AStep.create ansInitW 9 "done" studentW [] [] genW genW))
        (AStep.grade ansSubmittedW 0
          { grade := 85, teacher_comment := none, status := AnswerStatus.GRADED }
          teacherW 100))
      Relation.ReflTransGen.refl
      { id := 0, task_id := 9, student_id := 3, message := "done",
        status := AnswerStatus.GRADED, grade := some 85, teacher_comment := none,
        graded_at := some 100, files_metadata := [], photos_metadata := [] }
      (by decide) (by decide)⟩

end Testmaker
